import Mathlib

/-!
Macro action factory and macro action list editing

A shallow embedding of `src/macro-core/macro-action-edit.cpp`
(OBS Advanced Scene Switcher): the `MacroActionFactory` registry and the
`AdvSceneSwitcher` slots which add, remove, reorder and swap the actions of the
selected macro together with their edit widgets.

Conventions of the embedding

* `std::string` and `QString` are `String`, C++ `int` is `Int`. Indices that
  pass a range check are below the container size, so sums and differences
  taken after the check do not wrap around; the one sum taken before any
  check, in `on_actionAdd_clicked`, is `intSucc`.
* Objects are identified by reference: an element of an action list stands
  for the `MacroAction` object a `std::shared_ptr` points to.  Methods which
  only change fields of such an object (`SetIndex`, `Load`, `SetEntryData`)
  leave the lists of references untouched and therefore have no effect on the
  modelled state.
* A nullable pointer is an `Option`.
* Operations which in C++ throw, dereference a null pointer or have undefined
  behaviour return `Except.error` with the matching `Fault`.
* The mutex `switcher->m`, the signal `MacroSegmentOrderChanged` and purely
  visual calls (`HighlightAction`, `SetHelpMsgVisible`) have no part in the
  modelled state.
-/

namespace advss

/-! ## `std::map<std::string, V>` -/

/-- A `std::map<std::string, V>`, given by its entries in iteration order.
The entries of a map are strictly increasing in the key (`StdMap.Ordered`); the
operations below keep them so. -/
structure StdMap (V : Type) where
  entries : List (String × V)

/-- Lookup of a key in the entry list (`std::map::find`, `none` for `end()`). -/
def findEntry {V : Type} (k : String) : List (String × V) → Option V
  | [] => none
  | e :: es => if e.1 = k then some e.2 else findEntry k es

/-- Insert-or-assign on the entry list, keeping the key order
(`map[k] = v`). -/
def assignEntry {V : Type} (k : String) (v : V) : List (String × V) → List (String × V)
  | [] => [(k, v)]
  | e :: es =>
    if k < e.1 then (k, v) :: e :: es
    else if e.1 < k then e :: assignEntry k v es
    else (k, v) :: es

namespace StdMap

/-- The empty map. -/
def empty {V : Type} : StdMap V := ⟨[]⟩

/-- The key order of the entries: strictly increasing, hence no key twice. -/
def Ordered {V : Type} (m : StdMap V) : Prop :=
  m.entries.Pairwise (fun a b => a.1 < b.1)

/-- Result of `find(k)`: the mapped value, `none` for `end()`. -/
def find {V : Type} (m : StdMap V) (k : String) : Option V :=
  findEntry k m.entries

/-- Effect of `m[k] = v`. -/
def assign {V : Type} (m : StdMap V) (k : String) (v : V) : StdMap V :=
  ⟨assignEntry k v m.entries⟩

end StdMap

/-! ## Data model -/

/-- The part of a `Macro` this file works on: the containers returned by
`Actions()` and `ElseActions()`, holding references to `MacroAction` objects. -/
structure Macro (A : Type) where
  actions : List A
  elseActions : List A
  deriving DecidableEq

/-- Modelled from the spec: `struct MacroActionInfo`, declared in
`macro-action-edit.hpp`, which is not among the sources. Its fields are the
ones the factory reads (and those of the sibling `MacroConditionInfo` in
`macro-condition-edit.hpp`): the creation function of the action, the creation
function of its settings widget and the display name, a translation key. `A` is
the type of action objects, `W` the type of widget objects. -/
structure MacroActionInfo (A W : Type) where
  _createFunc : Option (Macro A) → Option A
  _createWidgetFunc : Option W → Option A → Option W
  _name : String

/-- The static registry `_methods` behind `MacroActionFactory::GetMap()`. -/
abbrev ActionMap (A W : Type) := StdMap (MacroActionInfo A W)

/-! ## `MacroActionFactory`

Every member function reaches the registry through the mutable reference
returned by `GetMap()`, so each is embedded as a function from the registry to
its return value and the registry afterwards. -/

namespace MacroActionFactory

variable {A W : Type}

/-- Embedding of `bool MacroActionFactory::Register(const std::string &id, MacroActionInfo info)`, lines 19-26 of `macro-action-edit.cpp`. -/
def Register (id : String) (info : MacroActionInfo A W) (map : ActionMap A W) :
    Bool × ActionMap A W :=
  match map.find id with
  | none => (true, map.assign id info)
  | some _ => (false, map)

/-- Embedding of `std::shared_ptr<MacroAction> MacroActionFactory::Create(const std::string &id, Macro *m)`, lines 28-35 of `macro-action-edit.cpp`. -/
def Create (id : String) (m : Option (Macro A)) (map : ActionMap A W) :
    Option A × ActionMap A W :=
  match map.find id with
  | some info => (info._createFunc m, map)
  | none => (none, map)

/-- Embedding of `QWidget *MacroActionFactory::CreateWidget(const std::string &id, QWidget *parent,
std::shared_ptr<MacroAction> action)`, lines 37-45 of `macro-action-edit.cpp`. -/
def CreateWidget (id : String) (parent : Option W) (action : Option A)
    (map : ActionMap A W) : Option W × ActionMap A W :=
  match map.find id with
  | some info => (info._createWidgetFunc parent action, map)
  | none => (none, map)

/-- Embedding of `std::string MacroActionFactory::GetActionName(const std::string &id)`, lines 47-53 of `macro-action-edit.cpp`. -/
def GetActionName (id : String) (map : ActionMap A W) : String × ActionMap A W :=
  match map.find id with
  | some info => (info._name, map)
  | none => ("unknown action", map)

/-- The loop of `GetIdByName` over the entries of the map, in iteration order;
`obs_module_text` is the translation function of the host. -/
def idByNameLoop (obs_module_text : String → String) (name : String) :
    List (String × MacroActionInfo A W) → String
  | [] => ""
  | it :: rest =>
    if name = obs_module_text it.2._name then it.1
    else idByNameLoop obs_module_text name rest

/-- Embedding of `std::string MacroActionFactory::GetIdByName(const QString &name)`, lines 55-63 of `macro-action-edit.cpp`. -/
def GetIdByName (obs_module_text : String → String) (name : String)
    (map : ActionMap A W) : String × ActionMap A W :=
  (idByNameLoop obs_module_text name map.entries, map)

end MacroActionFactory

/-! ## Containers and layouts -/

/-- The ways in which a C++ operation of this file can fail to complete. -/
inductive Fault where
  /-- The exception `std::out_of_range` thrown by `at()`. -/
  | outOfRange
  /-- A null pointer is dereferenced. -/
  | nullDereference
  /-- An iterator outside the range the operation accepts (undefined behaviour). -/
  | undefinedBehaviour
  deriving DecidableEq

/-- Modelled from the spec: `enum class MacroSection`, declared in a header
which is not among the sources; these are the enumerators this file names. -/
inductive MacroSection where
  | ACTIONS
  | ELSE_ACTIONS
  deriving DecidableEq

/-- The call `container.at(i)`: the element at `i`, `std::out_of_range` when `i` is not
a position of the container (a negative `int` converts to a huge `size_t`). -/
def vecAt {A : Type} (v : List A) (i : Int) : Except Fault A :=
  if 0 ≤ i then
    match v[i.toNat]? with
    | some a => .ok a
    | none => .error .outOfRange
  else .error .outOfRange

/-- The call `container.erase(container.begin() + i)`: defined only for the position of
an element. -/
def vecErase {A : Type} (v : List A) (i : Int) : Except Fault (List A) :=
  if 0 ≤ i ∧ i < v.length then .ok (v.eraseIdx i.toNat)
  else .error .undefinedBehaviour

/-- The call `container.insert(container.begin() + i, a)` (also `emplace`): defined for
`begin() <= begin() + i <= end()`. -/
def vecInsert {A : Type} (v : List A) (i : Int) (a : A) : Except Fault (List A) :=
  if 0 ≤ i ∧ i ≤ v.length then .ok (v.insertIdx i.toNat a)
  else .error .undefinedBehaviour

/-- The call `iter_swap(container.begin() + i, container.begin() + j)`: defined when
both iterators point to elements. -/
def vecIterSwap {A : Type} (v : List A) (i j : Int) : Except Fault (List A) :=
  if 0 ≤ i ∧ 0 ≤ j then
    match v[i.toNat]?, v[j.toNat]? with
    | some x, some y => .ok ((v.set i.toNat y).set j.toNat x)
    | _, _ => .error .undefinedBehaviour
  else .error .undefinedBehaviour

/-- Modelled from the spec: `QLayout::count()` of a content layout, which is
part of the GUI toolkit and not among the sources. A content layout is the list
of the widgets it shows, top to bottom. -/
def layoutCount {W : Type} (l : List W) : Int := l.length

/-- Modelled from the spec: `QLayout::takeAt(i)` of the GUI toolkit. It removes
the item at position `i` and returns it; for an `i` which is no position of the
layout it returns a null pointer and removes nothing. -/
def takeAt {W : Type} (l : List W) (i : Int) : Option W × List W :=
  if 0 ≤ i then (l[i.toNat]?, l.eraseIdx i.toNat) else (none, l)

/-- Modelled from the spec: `QBoxLayout::insertWidget(idx, w)` of the GUI
toolkit. It places `w` at position `idx`; a negative index or one beyond the
end appends. -/
def insertWidget {W : Type} (l : List W) (idx : Int) (w : W) : List W :=
  if idx < 0 ∨ idx > l.length then l ++ [w] else l.insertIdx idx.toNat w

/-- Modelled from the spec: `QBoxLayout::insertItem(idx, item)` of the GUI
toolkit, as `insertWidget` for an item; a null item shows no widget. -/
def insertItem {W : Type} (l : List W) (idx : Int) (item : Option W) : List W :=
  match item with
  | some w => insertWidget l idx w
  | none => l

/-- Modelled from the spec: `MacroSegmentList::Insert(idx, widget)`, defined
in a file which is not among the sources. It inserts the widget into the
content layout of the segment list at position `idx`. -/
def MacroSegmentList.Insert {W : Type} (l : List W) (idx : Int) (w : W) : List W :=
  insertWidget l idx w

/-- Modelled from the spec: `MacroSegmentList::Remove(idx)`, defined in a file
which is not among the sources. It takes the item at position `idx` out of the
content layout and deletes its widget; nothing happens when there is none. -/
def MacroSegmentList.Remove {W : Type} (l : List W) (idx : Int) : List W :=
  (takeAt l idx).2

/-! ## The editor state -/

/-- The selection state of the macro editor which the slots of this file read
and which `SetupMacroSegmentSelection` updates. -/
structure Selection where
  currentActionIdx : Int
  currentElseActionIdx : Int
  lastInteracted : MacroSection
  deriving DecidableEq

/-- The state of `AdvSceneSwitcher` (and of the global `switcher`) used by the
slots of this file. `selectedMacro` is the result of `GetSelectedMacro()`,
`actionsList` and `elseActionsList` are the content layouts of
`ui->actionsList` and `ui->elseActionsList`. -/
structure AdvSceneSwitcher (A W : Type) where
  selectedMacro : Option (Macro A)
  actionsList : List W
  elseActionsList : List W
  sel : Selection
  abortMacroWait : Bool
  deriving DecidableEq

/-- What the slots use and this file does not define.
* `GetId` is the virtual `MacroAction::GetId`.
* `sceneSwitchId` is the constant `MacroActionSwitchScene::id`.
* `newMacroActionEdit a id` is the widget built by
  `new MacroActionEdit(this, &slot, id)` for the slot holding `a`.
* `SetupMacroSegmentSelection` is the member of that name; it works on the
  selection state only. -/
structure Host (A W : Type) where
  GetId : A → String
  sceneSwitchId : String
  newMacroActionEdit : A → String → W
  SetupMacroSegmentSelection : MacroSection → Int → Selection → Selection

section Slots

variable {A W : Type}

/-- Embedding of `void AdvSceneSwitcher::MacroActionSelectionChanged(int idx)`, lines 618-621 of `macro-action-edit.cpp`. -/
def MacroActionSelectionChanged (h : Host A W) (idx : Int)
    (s : AdvSceneSwitcher A W) : AdvSceneSwitcher A W :=
  { s with sel := h.SetupMacroSegmentSelection MacroSection.ACTIONS idx s.sel }

/-- Embedding of `void AdvSceneSwitcher::MacroElseActionSelectionChanged(int idx)`, lines 469-472 of `macro-action-edit.cpp`. -/
def MacroElseActionSelectionChanged (h : Host A W) (idx : Int)
    (s : AdvSceneSwitcher A W) : AdvSceneSwitcher A W :=
  { s with sel := h.SetupMacroSegmentSelection MacroSection.ELSE_ACTIONS idx s.sel }

/-- The id chosen by `AddMacroAction` and `AddMacroElseAction` for the new
action: that of the action before position `idx`, or that of a scene switch
action at the very top. -/
def newActionId (h : Host A W) (actions : List A) (idx : Int) : Except Fault String :=
  if idx - 1 ≥ 0 then do
    let prev ← vecAt actions (idx - 1)
    pure (h.GetId prev)
  else pure h.sceneSwitchId

/-- Embedding of `void AdvSceneSwitcher::AddMacroAction(int idx)`, lines 212-249 of `macro-action-edit.cpp`.
The pointer returned by the factory is emplaced as it is; a null pointer is
then dereferenced, by `Load` when `idx - 1 >= 0` and by
`MacroActionEdit::UpdateEntryData` in the constructor of the new widget. -/
def AddMacroAction (h : Host A W) (map : ActionMap A W) (idx : Int)
    (s : AdvSceneSwitcher A W) : Except Fault (AdvSceneSwitcher A W) :=
  match s.selectedMacro with
  | none => .ok s
  | some m =>
    if idx < 0 ∨ idx > m.actions.length then .ok s
    else do
      let id ← newActionId h m.actions idx
      match (MacroActionFactory.Create id (some m) map).1 with
      | none => .error .nullDereference
      | some a =>
        let actions ← vecInsert m.actions idx a
        pure { s with
          selectedMacro := some { m with actions := actions }
          actionsList := MacroSegmentList.Insert s.actionsList idx (h.newMacroActionEdit a id) }

/-- Embedding of `void AdvSceneSwitcher::AddMacroElseAction(int idx)`, lines 500-536 of `macro-action-edit.cpp`. -/
def AddMacroElseAction (h : Host A W) (map : ActionMap A W) (idx : Int)
    (s : AdvSceneSwitcher A W) : Except Fault (AdvSceneSwitcher A W) :=
  match s.selectedMacro with
  | none => .ok s
  | some m =>
    if idx < 0 ∨ idx > m.elseActions.length then .ok s
    else do
      let id ← newActionId h m.elseActions idx
      match (MacroActionFactory.Create id (some m) map).1 with
      | none => .error .nullDereference
      | some a =>
        let elseActions ← vecInsert m.elseActions idx a
        pure { s with
          selectedMacro := some { m with elseActions := elseActions }
          elseActionsList :=
            MacroSegmentList.Insert s.elseActionsList idx (h.newMacroActionEdit a id) }

/-- The value of `i + 1` in the 32-bit `int` of the source, which wraps around
at `INT_MAX`. The sum is taken before any range check in
`on_actionAdd_clicked`. -/
def intSucc (i : Int) : Int := (i + 1 + 2147483648) % 4294967296 - 2147483648

/-- Embedding of `void AdvSceneSwitcher::on_actionAdd_clicked()`, lines 251-267 of `macro-action-edit.cpp`. -/
def on_actionAdd_clicked (h : Host A W) (map : ActionMap A W)
    (s : AdvSceneSwitcher A W) : Except Fault (AdvSceneSwitcher A W) :=
  match s.selectedMacro with
  | none => .ok s
  | some m => do
    let s1 ←
      if s.sel.currentActionIdx = -1 then AddMacroAction h map m.actions.length s
      else AddMacroAction h map (intSucc s.sel.currentActionIdx) s
    if s1.sel.currentActionIdx ≠ -1 then
      pure (MacroActionSelectionChanged h (intSucc s1.sel.currentActionIdx) s1)
    else pure s1

/-- Embedding of `void AdvSceneSwitcher::RemoveMacroAction(int idx)`, lines 269-292 of `macro-action-edit.cpp`. -/
def RemoveMacroAction (h : Host A W) (idx : Int)
    (s : AdvSceneSwitcher A W) : Except Fault (AdvSceneSwitcher A W) :=
  match s.selectedMacro with
  | none => .ok s
  | some m =>
    if idx < 0 ∨ idx ≥ m.actions.length then .ok s
    else do
      let widgets := MacroSegmentList.Remove s.actionsList idx
      let actions ← vecErase m.actions idx
      let s1 : AdvSceneSwitcher A W := { s with
        selectedMacro := some { m with actions := actions }
        actionsList := widgets
        abortMacroWait := true }
      let s2 := MacroActionSelectionChanged h (-1) s1
      pure { s2 with sel := { s2.sel with lastInteracted := MacroSection.ACTIONS } }

/-- Embedding of `void AdvSceneSwitcher::on_actionRemove_clicked()`, lines 294-306 of `macro-action-edit.cpp`. -/
def on_actionRemove_clicked (h : Host A W)
    (s : AdvSceneSwitcher A W) : Except Fault (AdvSceneSwitcher A W) :=
  if s.sel.currentActionIdx = -1 then
    match s.selectedMacro with
    | none => .ok s
    | some m => do
      let s1 ← RemoveMacroAction h ((m.actions.length : Int) - 1) s
      pure (MacroActionSelectionChanged h (-1) s1)
  else do
    let s1 ← RemoveMacroAction h s.sel.currentActionIdx s
    pure (MacroActionSelectionChanged h (-1) s1)

/-- Embedding of `void AdvSceneSwitcher::RemoveMacroElseAction(int idx)`, lines 538-561 of `macro-action-edit.cpp`. -/
def RemoveMacroElseAction (h : Host A W) (idx : Int)
    (s : AdvSceneSwitcher A W) : Except Fault (AdvSceneSwitcher A W) :=
  match s.selectedMacro with
  | none => .ok s
  | some m =>
    if idx < 0 ∨ idx ≥ m.elseActions.length then .ok s
    else do
      let widgets := MacroSegmentList.Remove s.elseActionsList idx
      let elseActions ← vecErase m.elseActions idx
      let s1 : AdvSceneSwitcher A W := { s with
        selectedMacro := some { m with elseActions := elseActions }
        elseActionsList := widgets
        abortMacroWait := true }
      let s2 := MacroElseActionSelectionChanged h (-1) s1
      pure { s2 with sel := { s2.sel with lastInteracted := MacroSection.ELSE_ACTIONS } }

/-- Embedding of `void AdvSceneSwitcher::on_elseActionRemove_clicked()`, lines 364-376 of `macro-action-edit.cpp`. -/
def on_elseActionRemove_clicked (h : Host A W)
    (s : AdvSceneSwitcher A W) : Except Fault (AdvSceneSwitcher A W) :=
  if s.sel.currentElseActionIdx = -1 then
    match s.selectedMacro with
    | none => .ok s
    | some m => do
      let s1 ← RemoveMacroElseAction h ((m.actions.length : Int) - 1) s
      pure (MacroElseActionSelectionChanged h (-1) s1)
  else do
    let s1 ← RemoveMacroElseAction h s.sel.currentElseActionIdx s
    pure (MacroElseActionSelectionChanged h (-1) s1)

/-- Embedding of `void AdvSceneSwitcher::MacroActionReorder(int to, int from)`, lines 623-646 of `macro-action-edit.cpp`. -/
def MacroActionReorder (to_ from_ : Int)
    (s : AdvSceneSwitcher A W) : Except Fault (AdvSceneSwitcher A W) :=
  match s.selectedMacro with
  | none => .ok s
  | some m =>
    if to_ = from_ ∨ from_ < 0 ∨ from_ > m.actions.length ∨
        to_ < 0 ∨ to_ > m.actions.length then .ok s
    else do
      let action ← vecAt m.actions from_
      let erased ← vecErase m.actions from_
      let actions ← vecInsert erased to_ action
      let taken := takeAt s.actionsList from_
      pure { s with
        selectedMacro := some { m with actions := actions }
        actionsList := insertItem taken.2 to_ taken.1 }

/-- Embedding of `void AdvSceneSwitcher::MacroElseActionReorder(int to, int from)`, lines 474-498 of `macro-action-edit.cpp`. -/
def MacroElseActionReorder (to_ from_ : Int)
    (s : AdvSceneSwitcher A W) : Except Fault (AdvSceneSwitcher A W) :=
  match s.selectedMacro with
  | none => .ok s
  | some m =>
    if to_ = from_ ∨ from_ < 0 ∨ from_ > m.elseActions.length ∨
        to_ < 0 ∨ to_ > m.elseActions.length then .ok s
    else do
      let action ← vecAt m.elseActions from_
      let erased ← vecErase m.elseActions from_
      let elseActions ← vecInsert erased to_ action
      let taken := takeAt s.elseActionsList from_
      pure { s with
        selectedMacro := some { m with elseActions := elseActions }
        elseActionsList := insertItem taken.2 to_ taken.1 }

/-- Embedding of `void AdvSceneSwitcher::on_actionTop_clicked()`, lines 308-315 of `macro-action-edit.cpp`. -/
def on_actionTop_clicked (h : Host A W)
    (s : AdvSceneSwitcher A W) : Except Fault (AdvSceneSwitcher A W) :=
  if s.sel.currentActionIdx = -1 then .ok s
  else do
    let s1 ← MacroActionReorder 0 s.sel.currentActionIdx s
    pure (MacroActionSelectionChanged h 0 s1)

/-- Embedding of `void AdvSceneSwitcher::on_actionBottom_clicked()`, lines 336-344 of `macro-action-edit.cpp`. -/
def on_actionBottom_clicked (h : Host A W)
    (s : AdvSceneSwitcher A W) : Except Fault (AdvSceneSwitcher A W) :=
  if s.sel.currentActionIdx = -1 then .ok s
  else do
    let newIdx := layoutCount s.actionsList - 1
    let s1 ← MacroActionReorder newIdx s.sel.currentActionIdx s
    pure (MacroActionSelectionChanged h newIdx s1)

/-- The pointer a layout item is asked for its `widget()` through. -/
def derefItem (item : Option W) : Except Fault W :=
  match item with
  | some w => .ok w
  | none => .error .nullDereference

/-- Embedding of `void AdvSceneSwitcher::SwapActions(Macro *m, int pos1, int pos2)`, lines 417-437 of `macro-action-edit.cpp`.
The argument `m` is passed in and handed back; a caller which passes its selected
Macro stores the result there. -/
def SwapActions (m : Macro A) (pos1 pos2 : Int)
    (s : AdvSceneSwitcher A W) : Except Fault (Macro A × AdvSceneSwitcher A W) :=
  if pos1 = pos2 then .ok (m, s)
  else
    let p := if pos1 > pos2 then (pos2, pos1) else (pos1, pos2)
    do
      let actions ← vecIterSwap m.actions p.1 p.2
      let taken1 := takeAt s.actionsList p.1
      let widget1 ← derefItem taken1.1
      let taken2 := takeAt taken1.2 (p.2 - 1)
      let widget2 ← derefItem taken2.1
      let l1 := MacroSegmentList.Insert taken2.2 p.1 widget2
      let l2 := MacroSegmentList.Insert l1 p.2 widget1
      pure ({ m with actions := actions }, { s with actionsList := l2 })

/-- Embedding of `void AdvSceneSwitcher::SwapElseActions(Macro *m, int pos1, int pos2)`, lines 563-586 of `macro-action-edit.cpp`. -/
def SwapElseActions (m : Macro A) (pos1 pos2 : Int)
    (s : AdvSceneSwitcher A W) : Except Fault (Macro A × AdvSceneSwitcher A W) :=
  if pos1 = pos2 then .ok (m, s)
  else
    let p := if pos1 > pos2 then (pos2, pos1) else (pos1, pos2)
    do
      let elseActions ← vecIterSwap m.elseActions p.1 p.2
      let taken1 := takeAt s.elseActionsList p.1
      let widget1 ← derefItem taken1.1
      let taken2 := takeAt taken1.2 (p.2 - 1)
      let widget2 ← derefItem taken2.1
      let l1 := MacroSegmentList.Insert taken2.2 p.1 widget2
      let l2 := MacroSegmentList.Insert l1 p.2 widget1
      pure ({ m with elseActions := elseActions }, { s with elseActionsList := l2 })

/-- Embedding of `void AdvSceneSwitcher::MoveMacroActionUp(int idx)`, lines 439-452 of `macro-action-edit.cpp`.
`SwapActions` is handed `macro.get()`, the selected macro itself, so what it
hands back is the selected macro afterwards. -/
def MoveMacroActionUp (idx : Int)
    (s : AdvSceneSwitcher A W) : Except Fault (AdvSceneSwitcher A W) :=
  match s.selectedMacro with
  | none => .ok s
  | some m =>
    if idx < 1 ∨ idx ≥ m.actions.length then .ok s
    else do
      let swapped ← SwapActions m idx (idx - 1) s
      pure { swapped.2 with selectedMacro := some swapped.1 }

/-- Embedding of `void AdvSceneSwitcher::MoveMacroActionDown(int idx)`, lines 454-467 of `macro-action-edit.cpp`. -/
def MoveMacroActionDown (idx : Int)
    (s : AdvSceneSwitcher A W) : Except Fault (AdvSceneSwitcher A W) :=
  match s.selectedMacro with
  | none => .ok s
  | some m =>
    if idx < 0 ∨ idx ≥ (m.actions.length : Int) - 1 then .ok s
    else do
      let swapped ← SwapActions m idx (idx + 1) s
      pure { swapped.2 with selectedMacro := some swapped.1 }

end Slots

/-! ## Relations between a list before and after an edit -/

/-- States that `r` is `l` with the element at position `src` moved to position `dst`:
the same length and elements, the moved element at `dst`, and the other
elements in the order they had. -/
def IsMoveOf {A : Type} (l r : List A) (src dst : Nat) : Prop :=
  r.length = l.length ∧ r.Perm l ∧ r[dst]? = l[src]? ∧ r.eraseIdx dst = l.eraseIdx src

/-- States that `r` is `l` with `a` inserted at position `i`: the elements before `i`
stay, `a` is at `i`, the elements from `i` on are shifted by one. -/
def IsInsertionOf {A : Type} (l r : List A) (i : Nat) (a : A) : Prop :=
  r.length = l.length + 1 ∧ (∀ j, j < i → r[j]? = l[j]?) ∧ r[i]? = some a ∧
    (∀ j, i ≤ j → r[j + 1]? = l[j]?)

/-- States that `r` is `l` without its element at position `i`: the elements before `i`
stay, those after `i` move down by one. -/
def IsRemovalOf {A : Type} (l r : List A) (i : Nat) : Prop :=
  r.length + 1 = l.length ∧ (∀ j, j < i → r[j]? = l[j]?) ∧
    (∀ j, i ≤ j → r[j]? = l[j + 1]?)

/-- States that `r` is `l` with the elements at positions `i` and `j` exchanged and every
other position unchanged. -/
def IsExchangeOf {A : Type} (l r : List A) (i j : Nat) : Prop :=
  r.length = l.length ∧ r[i]? = l[j]? ∧ r[j]? = l[i]? ∧
    (∀ k, k ≠ i → k ≠ j → r[k]? = l[k]?)

/-- States that the edit widgets are aligned with the actions: the two lists
have the same length and at every position the widget is the editor of the
action at that position. `edited w` is the action object the edit widget `w`
was built for: the constructor of `MacroActionEdit` keeps the slot it is given
and hands the action in it to the settings widget it creates
(`CreateWidget(id, this, *_entryData)`). -/
def IsAlignedWith {A W : Type} (edited : W → A) (widgets : List W) (actions : List A) :
    Prop :=
  widgets.length = actions.length ∧ ∀ i : Nat, (widgets[i]?).map edited = actions[i]?

/-! ## Concrete data on which the operations are evaluated -/

/-- An action info used to evaluate the factory on concrete registries. -/
def sampleInfo (name : String) (made : Option Nat) : MacroActionInfo Nat Nat :=
  ⟨fun _ => made, fun _ _ => none, name⟩

/-- A host whose actions are numbers: the id of an action tells whether it is
even, the edit widget of action `a` is `100 + a`, and selecting a segment
records the index in the section it belongs to. -/
def sampleHost : Host Nat Nat where
  GetId := fun a => if a % 2 = 0 then "scene_switch" else "media"
  sceneSwitchId := "scene_switch"
  newMacroActionEdit := fun a _ => 100 + a
  SetupMacroSegmentSelection := fun section_ idx sel =>
    match section_ with
    | MacroSection.ACTIONS =>
      { currentActionIdx := idx, currentElseActionIdx := -1, lastInteracted := sel.lastInteracted }
    | MacroSection.ELSE_ACTIONS =>
      { currentActionIdx := -1, currentElseActionIdx := idx, lastInteracted := sel.lastInteracted }

/-- The action which a widget of `sampleHost` edits: widget `100 + a` edits
action `a`. -/
def sampleEdited (w : Nat) : Nat := w - 100

/-- An editor state with the given actions, else-actions and their widgets,
and nothing selected. -/
def sampleState (actions elseActions widgets elseWidgets : List Nat) :
    AdvSceneSwitcher Nat Nat where
  selectedMacro := some ⟨actions, elseActions⟩
  actionsList := widgets
  elseActionsList := elseWidgets
  sel := ⟨-1, -1, MacroSection.ACTIONS⟩
  abortMacroWait := false

/-- An editor state with the given actions and their widgets, no else-actions,
and the action at position `c` selected. -/
def sampleSelected (actions widgets : List Nat) (c : Int) : AdvSceneSwitcher Nat Nat where
  selectedMacro := some ⟨actions, []⟩
  actionsList := widgets
  elseActionsList := []
  sel := ⟨c, -1, MacroSection.ACTIONS⟩
  abortMacroWait := false

/-- A translation which knows one key. -/
def sampleTranslate (key : String) : String :=
  if key = "Switch scene" then "Szene wechseln" else key

/-- A registry holding the single id `scene_switch`. -/
def sampleMap : ActionMap Nat Nat :=
  ⟨[("scene_switch", sampleInfo "Switch scene" (some 7))]⟩

/-! ## Facts about the map operations -/

theorem assignEntry_fst_mem {V : Type} (k : String) (v : V) :
    ∀ (es : List (String × V)) (x : String × V),
      x ∈ assignEntry k v es → x.1 = k ∨ x ∈ es
  | [], x, h => by
    simp only [assignEntry, List.mem_singleton] at h
    exact Or.inl (by rw [h])
  | e :: es, x, h => by
    unfold assignEntry at h
    split_ifs at h with h1 h2
    · rcases List.mem_cons.1 h with h | h
      · exact Or.inl (by rw [h])
      · exact Or.inr h
    · rcases List.mem_cons.1 h with h | h
      · exact Or.inr (by rw [h]; exact List.mem_cons_self _ _)
      · rcases assignEntry_fst_mem k v es x h with h | h
        · exact Or.inl h
        · exact Or.inr (List.mem_cons_of_mem _ h)
    · rcases List.mem_cons.1 h with h | h
      · exact Or.inl (by rw [h])
      · exact Or.inr (List.mem_cons_of_mem _ h)

theorem assignEntry_ordered {V : Type} (k : String) (v : V) :
    ∀ (es : List (String × V)), es.Pairwise (fun a b => a.1 < b.1) →
      (assignEntry k v es).Pairwise (fun a b => a.1 < b.1)
  | [], _ => by simp [assignEntry]
  | e :: es, h => by
    have hhd := (List.pairwise_cons.1 h).1
    have htl := (List.pairwise_cons.1 h).2
    unfold assignEntry
    split_ifs with h1 h2
    · refine List.pairwise_cons.2 ⟨?_, h⟩
      intro x hx
      rcases List.mem_cons.1 hx with hx | hx
      · rw [hx]; exact h1
      · exact lt_trans h1 (hhd x hx)
    · refine List.pairwise_cons.2 ⟨?_, assignEntry_ordered k v es htl⟩
      intro x hx
      rcases assignEntry_fst_mem k v es x hx with hx | hx
      · rw [hx]; exact h2
      · exact hhd x hx
    · have hk : k = e.1 := le_antisymm (not_lt.1 h2) (not_lt.1 h1)
      refine List.pairwise_cons.2 ⟨?_, htl⟩
      intro x hx
      show k < x.1
      rw [hk]
      exact hhd x hx

theorem StdMap.assign_ordered {V : Type} (m : StdMap V) (k : String) (v : V)
    (h : m.Ordered) : (m.assign k v).Ordered :=
  assignEntry_ordered k v m.entries h

theorem findEntry_assignEntry_self {V : Type} (k : String) (v : V) :
    ∀ (es : List (String × V)), findEntry k (assignEntry k v es) = some v
  | [] => by simp [assignEntry, findEntry]
  | e :: es => by
    unfold assignEntry
    split_ifs with h1 h2
    · simp [findEntry]
    · have he : ¬ e.1 = k := ne_of_lt h2
      simp [findEntry, he, findEntry_assignEntry_self k v es]
    · simp [findEntry]

theorem findEntry_assignEntry_other {V : Type} (k : String) (v : V) (q : String)
    (hq : ¬ q = k) :
    ∀ (es : List (String × V)), findEntry q (assignEntry k v es) = findEntry q es
  | [] => by
    have hq2 : ¬ k = q := fun h => hq h.symm
    simp [assignEntry, findEntry, hq2]
  | e :: es => by
    have hq2 : ¬ k = q := fun h => hq h.symm
    unfold assignEntry
    split_ifs with h1 h2
    · simp [findEntry, hq2]
    · simp [findEntry, findEntry_assignEntry_other k v q hq es]
    · have hk : k = e.1 := le_antisymm (not_lt.1 h2) (not_lt.1 h1)
      have he : ¬ e.1 = q := by rw [← hk]; exact hq2
      simp [findEntry, hq2, he]

theorem findEntry_assignEntry {V : Type} (k : String) (v : V) (q : String)
    (es : List (String × V)) :
    findEntry q (assignEntry k v es) = if q = k then some v else findEntry q es := by
  by_cases hq : q = k
  · rw [if_pos hq, hq]; exact findEntry_assignEntry_self k v es
  · rw [if_neg hq]; exact findEntry_assignEntry_other k v q hq es

theorem assignEntry_perm {V : Type} (k : String) (v : V) :
    ∀ (es : List (String × V)), findEntry k es = none →
      (assignEntry k v es).Perm ((k, v) :: es)
  | [], _ => by simp [assignEntry]
  | e :: es, h => by
    have he : ¬ e.1 = k := by
      intro hek
      simp [findEntry, hek] at h
    have htl : findEntry k es = none := by
      simpa [findEntry, he] using h
    unfold assignEntry
    split_ifs with h1 h2
    · exact List.Perm.refl _
    · exact ((assignEntry_perm k v es htl).cons e).trans (List.Perm.swap _ _ _)
    · exact absurd (le_antisymm (not_lt.1 h1) (not_lt.1 h2)) he

theorem findEntry_mem {V : Type} (k : String) (v : V) :
    ∀ (es : List (String × V)), findEntry k es = some v → (k, v) ∈ es
  | [], h => by simp [findEntry] at h
  | e :: es, h => by
    unfold findEntry at h
    split_ifs at h with h1
    · have h2 : e.2 = v := Option.some.inj h
      have : e = (k, v) := Prod.ext h1 h2
      rw [this]; exact List.mem_cons_self _ _
    · exact List.mem_cons_of_mem _ (findEntry_mem k v es h)

/-! ## Facts about lists -/

section ListFacts

variable {A : Type}

theorem cons_eraseIdx_perm :
    ∀ (l : List A) (i : Nat) (x : A), l[i]? = some x → (x :: l.eraseIdx i).Perm l
  | [], i, x, h => by simp at h
  | a :: as, 0, x, h => by
    have hx : a = x := by simpa using h
    rw [hx]
    exact List.Perm.refl _
  | a :: as, i + 1, x, h => by
    have hx : as[i]? = some x := by simpa using h
    rw [List.eraseIdx_cons_succ]
    exact (List.Perm.swap a x _).trans ((cons_eraseIdx_perm as i x hx).cons a)

theorem getElem?_insertIdx_self :
    ∀ (i : Nat) (l : List A) (a : A), i ≤ l.length → (l.insertIdx i a)[i]? = some a
  | 0, l, a, _ => by simp [List.insertIdx_zero]
  | i + 1, [], a, h => by simp at h
  | i + 1, x :: xs, a, h => by
    rw [List.insertIdx_succ_cons, List.getElem?_cons_succ]
    exact getElem?_insertIdx_self i xs a (by simpa using h)

theorem getElem?_insertIdx_before :
    ∀ (i : Nat) (l : List A) (a : A) (j : Nat), j < i → i ≤ l.length →
      (l.insertIdx i a)[j]? = l[j]?
  | 0, _, _, j, hj, _ => by omega
  | i + 1, [], a, j, _, h => by simp at h
  | i + 1, x :: xs, a, 0, _, _ => by simp [List.insertIdx_succ_cons]
  | i + 1, x :: xs, a, j + 1, hj, h => by
    rw [List.insertIdx_succ_cons, List.getElem?_cons_succ, List.getElem?_cons_succ]
    exact getElem?_insertIdx_before i xs a j (by omega) (by simpa using h)

theorem getElem?_insertIdx_after :
    ∀ (i : Nat) (l : List A) (a : A) (j : Nat), i ≤ j → i ≤ l.length →
      (l.insertIdx i a)[j + 1]? = l[j]?
  | 0, l, a, j, _, _ => by simp [List.insertIdx_zero]
  | i + 1, [], a, j, _, h => by simp at h
  | i + 1, x :: xs, a, 0, hj, _ => by omega
  | i + 1, x :: xs, a, j + 1, hj, h => by
    rw [List.insertIdx_succ_cons, List.getElem?_cons_succ, List.getElem?_cons_succ]
    exact getElem?_insertIdx_after i xs a j (by omega) (by simpa using h)

theorem insertIdx_isInsertionOf (l : List A) (i : Nat) (a : A) (h : i ≤ l.length) :
    IsInsertionOf l (l.insertIdx i a) i a :=
  ⟨List.length_insertIdx i l h,
   fun j hj => getElem?_insertIdx_before i l a j hj h,
   getElem?_insertIdx_self i l a h,
   fun j hj => getElem?_insertIdx_after i l a j hj h⟩

theorem eraseIdx_isRemovalOf (l : List A) (i : Nat) (h : i < l.length) :
    IsRemovalOf l (l.eraseIdx i) i := by
  refine ⟨?_, fun j hj => ?_, fun j hj => ?_⟩
  · rw [List.length_eraseIdx_of_lt h]; omega
  · rw [List.getElem?_eraseIdx, if_pos hj]
  · rw [List.getElem?_eraseIdx, if_neg (by omega)]

theorem eraseIdx_insertIdx_isMoveOf (l : List A) (src dst : Nat) (x : A)
    (hsrc : l[src]? = some x) (hdst : dst < l.length) :
    IsMoveOf l ((l.eraseIdx src).insertIdx dst x) src dst := by
  have hlt : src < l.length := by
    rcases Nat.lt_or_ge src l.length with h | h
    · exact h
    · rw [List.getElem?_eq_none h] at hsrc; cases hsrc
  have hlen : (l.eraseIdx src).length = l.length - 1 := List.length_eraseIdx_of_lt hlt
  have hle : dst ≤ (l.eraseIdx src).length := by omega
  refine ⟨?_, ?_, ?_, ?_⟩
  · rw [List.length_insertIdx dst _ hle, hlen]; omega
  · exact (List.perm_insertIdx x _ hle).trans (cons_eraseIdx_perm l src x hsrc)
  · rw [getElem?_insertIdx_self dst _ x hle, hsrc]
  · exact List.eraseIdx_insertIdx dst _

theorem isMoveOf_refl (l : List A) (i : Nat) : IsMoveOf l l i i :=
  ⟨rfl, List.Perm.refl l, rfl, rfl⟩

theorem set_set_isExchangeOf (l : List A) (i j : Nat) (x y : A) (hij : i ≠ j)
    (hx : l[i]? = some x) (hy : l[j]? = some y) :
    IsExchangeOf l ((l.set i y).set j x) i j := by
  have hi : i < l.length := by
    rcases Nat.lt_or_ge i l.length with h | h
    · exact h
    · rw [List.getElem?_eq_none h] at hx; cases hx
  have hj : j < l.length := by
    rcases Nat.lt_or_ge j l.length with h | h
    · exact h
    · rw [List.getElem?_eq_none h] at hy; cases hy
  refine ⟨by simp, ?_, ?_, fun k hki hkj => ?_⟩
  · rw [List.getElem?_set_ne (Ne.symm hij), List.getElem?_set, if_pos rfl, if_pos hi, hy]
  · rw [List.getElem?_set, if_pos rfl, if_pos (by simpa using hj), hx]
  · rw [List.getElem?_set_ne (Ne.symm hkj), List.getElem?_set_ne (Ne.symm hki)]

theorem insertIdx_eraseIdx_eq_set :
    ∀ (l : List A) (d : Nat) (x : A), d < l.length →
      (l.eraseIdx d).insertIdx d x = l.set d x
  | [], d, x, h => by simp at h
  | a :: as, 0, x, _ => by simp [List.insertIdx_zero]
  | a :: as, d + 1, x, h => by
    rw [List.eraseIdx_cons_succ, List.insertIdx_succ_cons, List.set_cons_succ,
      insertIdx_eraseIdx_eq_set as d x (by simpa using h)]

/-- The four layout steps of a swap, on positions `i < i + 1 + d`, amount to
two assignments. -/
theorem take_take_insert_insert_eq_set_set :
    ∀ (l : List A) (i d : Nat) (w1 w2 : A), l[i]? = some w1 → l[i + 1 + d]? = some w2 →
      (((l.eraseIdx i).eraseIdx (i + d)).insertIdx i w2).insertIdx (i + 1 + d) w1 =
        (l.set i w2).set (i + 1 + d) w1
  | [], i, d, w1, w2, h1, _ => by simp at h1
  | a :: as, 0, d, w1, w2, h1, h2 => by
    have ha : a = w1 := by simpa using h1
    have hd : d < as.length := by
      rcases Nat.lt_or_ge d as.length with h | h
      · exact h
      · have h2b : as[d]? = some w2 := by
          have : 0 + 1 + d = d + 1 := by omega
          rw [this, List.getElem?_cons_succ] at h2
          exact h2
        rw [List.getElem?_eq_none h] at h2b; cases h2b
    have e1 : 0 + 1 + d = d + 1 := by omega
    rw [e1, Nat.zero_add, List.eraseIdx_cons_zero, List.insertIdx_zero,
      List.insertIdx_succ_cons, List.set_cons_zero, List.set_cons_succ,
      insertIdx_eraseIdx_eq_set as d w1 hd]
  | a :: as, i + 1, d, w1, w2, h1, h2 => by
    have h1b : as[i]? = some w1 := by simpa using h1
    have e1 : i + 1 + 1 + d = (i + 1 + d) + 1 := by omega
    have e2 : i + 1 + d = (i + d) + 1 := by omega
    have h2b : as[i + 1 + d]? = some w2 := by
      rw [e1, List.getElem?_cons_succ] at h2
      exact h2
    have ih := take_take_insert_insert_eq_set_set as i d w1 w2 h1b h2b
    rw [e1, List.eraseIdx_cons_succ, e2, List.eraseIdx_cons_succ,
      List.insertIdx_succ_cons, List.insertIdx_succ_cons, List.set_cons_succ,
      List.set_cons_succ, ← e2, ih]

end ListFacts

/-! ## The factory: registration and lookup -/

section Factory

variable {A W : Type}

theorem Register_ordered (map : ActionMap A W) (id : String) (info : MacroActionInfo A W)
    (h : map.Ordered) : (MacroActionFactory.Register id info map).2.Ordered := by
  cases hfind : map.find id with
  | none =>
    simp only [MacroActionFactory.Register, hfind]
    exact StdMap.assign_ordered map id info h
  | some first =>
    simp only [MacroActionFactory.Register, hfind]
    exact h

/-- C1. `MacroActionFactory::Register` is first-wins. When `id` is not yet
registered it returns `true` and adds exactly the mapping `id -> info`: every
lookup afterwards gives `info` for `id` and the earlier result for any other
key, and the entries are those of before together with `(id, info)`. When `id`
is already registered it returns `false`, the registry is unchanged and
`GetActionName id` still returns the name registered first. -/
theorem Register_first_wins (map : ActionMap A W) (id : String)
    (info : MacroActionInfo A W) :
    (map.find id = none →
      (MacroActionFactory.Register id info map).1 = true ∧
      (∀ k : String, (MacroActionFactory.Register id info map).2.find k =
        if k = id then some info else map.find k) ∧
      (MacroActionFactory.Register id info map).2.entries.Perm
        ((id, info) :: map.entries)) ∧
    (∀ first : MacroActionInfo A W, map.find id = some first →
      (MacroActionFactory.Register id info map).1 = false ∧
      (MacroActionFactory.Register id info map).2 = map ∧
      (MacroActionFactory.GetActionName id
        (MacroActionFactory.Register id info map).2).1 = first._name) := by
  refine ⟨fun hnone => ?_, fun first hsome => ?_⟩
  · refine ⟨?_, ?_, ?_⟩
    · simp [MacroActionFactory.Register, hnone]
    · intro k
      have hreg : (MacroActionFactory.Register id info map).2 = map.assign id info := by
        simp [MacroActionFactory.Register, hnone]
      rw [hreg]
      exact findEntry_assignEntry id info k map.entries
    · simp only [MacroActionFactory.Register, hnone, StdMap.assign]
      exact assignEntry_perm id info map.entries hnone
  · simp [MacroActionFactory.Register, MacroActionFactory.GetActionName, hsome]

theorem Register_first_wins_witness :
    ((MacroActionFactory.Register "scene_switch" (sampleInfo "Switch scene" (some 7))
        StdMap.empty).1 = true ∧
      (∀ k : String,
        (MacroActionFactory.Register "scene_switch" (sampleInfo "Switch scene" (some 7))
          StdMap.empty).2.find k =
        if k = "scene_switch" then some (sampleInfo "Switch scene" (some 7))
        else StdMap.empty.find k) ∧
      (MacroActionFactory.Register "scene_switch" (sampleInfo "Switch scene" (some 7))
        StdMap.empty).2.entries.Perm
        (("scene_switch", sampleInfo "Switch scene" (some 7)) :: StdMap.empty.entries)) ∧
    ((MacroActionFactory.Register "scene_switch" (sampleInfo "Other" none)
        sampleMap).1 = false ∧
      (MacroActionFactory.Register "scene_switch" (sampleInfo "Other" none)
        sampleMap).2 = sampleMap ∧
      (MacroActionFactory.GetActionName "scene_switch"
        (MacroActionFactory.Register "scene_switch" (sampleInfo "Other" none)
          sampleMap).2).1 = (sampleInfo "Switch scene" (some 7))._name) :=
  ⟨(Register_first_wins StdMap.empty "scene_switch"
      (sampleInfo "Switch scene" (some 7))).1 rfl,
   (Register_first_wins sampleMap "scene_switch" (sampleInfo "Other" none)).2
      (sampleInfo "Switch scene" (some 7)) (by simp [StdMap.find, sampleMap, findEntry])⟩

/-- C2. Lookups in the factory. For an id which is not registered `Create` and
`CreateWidget` return null and `GetActionName` returns `"unknown action"`; for
a registered id `Create` returns what the registered creation function returns
for the given macro and `GetActionName` returns the registered name. The
registry after each lookup, and after `CreateWidget` on a registered id too, is
the registry before it. -/
theorem factory_lookups (map : ActionMap A W) (id : String) (m : Option (Macro A))
    (parent : Option W) (action : Option A) :
    (map.find id = none →
      (MacroActionFactory.Create id m map).1 = none ∧
      (MacroActionFactory.CreateWidget id parent action map).1 = none ∧
      (MacroActionFactory.GetActionName id map).1 = "unknown action") ∧
    (∀ info : MacroActionInfo A W, map.find id = some info →
      (MacroActionFactory.Create id m map).1 = info._createFunc m ∧
      (MacroActionFactory.GetActionName id map).1 = info._name) ∧
    ((MacroActionFactory.Create id m map).2 = map ∧
      (MacroActionFactory.CreateWidget id parent action map).2 = map ∧
      (MacroActionFactory.GetActionName id map).2 = map) := by
  refine ⟨fun hnone => ?_, fun info hsome => ?_, ?_⟩
  · simp [MacroActionFactory.Create, MacroActionFactory.CreateWidget,
      MacroActionFactory.GetActionName, hnone]
  · simp [MacroActionFactory.Create, MacroActionFactory.GetActionName, hsome]
  · cases hfind : map.find id <;>
      simp [MacroActionFactory.Create, MacroActionFactory.CreateWidget,
        MacroActionFactory.GetActionName, hfind]

theorem factory_lookups_witness :
    ((MacroActionFactory.Create "media" (none : Option (Macro Nat)) sampleMap).1 = none ∧
      (MacroActionFactory.CreateWidget "media" (none : Option Nat) (some 3) sampleMap).1 = none ∧
      (MacroActionFactory.GetActionName "media" sampleMap).1 = "unknown action") ∧
    ((MacroActionFactory.Create "scene_switch" (none : Option (Macro Nat)) sampleMap).1 =
        (sampleInfo "Switch scene" (some 7))._createFunc none ∧
      (MacroActionFactory.GetActionName "scene_switch" sampleMap).1 =
        (sampleInfo "Switch scene" (some 7))._name) :=
  ⟨(factory_lookups sampleMap "media" none none (some 3)).1
      (by simp [StdMap.find, sampleMap, findEntry]),
   (factory_lookups sampleMap "scene_switch" none none none).2.1
      (sampleInfo "Switch scene" (some 7)) (by simp [StdMap.find, sampleMap, findEntry])⟩

theorem idByNameLoop_none (tr : String → String) (name : String) :
    ∀ (es : List (String × MacroActionInfo A W)),
      (∀ e ∈ es, tr e.2._name ≠ name) →
      MacroActionFactory.idByNameLoop tr name es = ""
  | [], _ => rfl
  | e :: es, h => by
    have he : ¬ name = tr e.2._name := fun hn => h e (List.mem_cons_self _ _) hn.symm
    simp only [MacroActionFactory.idByNameLoop, if_neg he]
    exact idByNameLoop_none tr name es (fun x hx => h x (List.mem_cons_of_mem _ hx))

theorem idByNameLoop_unique (tr : String → String) (name id : String) :
    ∀ (es : List (String × MacroActionInfo A W)),
      (∃ e ∈ es, e.1 = id ∧ tr e.2._name = name) →
      (∀ e ∈ es, e.1 ≠ id → tr e.2._name ≠ name) →
      MacroActionFactory.idByNameLoop tr name es = id
  | [], hex, _ => by
    obtain ⟨e, he, _⟩ := hex
    simp at he
  | e :: es, hex, hothers => by
    by_cases hn : name = tr e.2._name
    · simp only [MacroActionFactory.idByNameLoop, if_pos hn]
      by_contra hid
      exact hothers e (List.mem_cons_self _ _) hid hn.symm
    · simp only [MacroActionFactory.idByNameLoop, if_neg hn]
      refine idByNameLoop_unique tr name id es ?_
        (fun x hx => hothers x (List.mem_cons_of_mem _ hx))
      obtain ⟨x, hx, hx1, hx2⟩ := hex
      rcases List.mem_cons.1 hx with hxe | hxe
      · rw [hxe] at hx2
        exact absurd hx2.symm hn
      · exact ⟨x, hxe, hx1, hx2⟩

/-- C3. `GetIdByName` inverts `GetActionName`. For a registered `id` whose
translated display name is the translated display name of no entry with
another id, `GetIdByName (translate (GetActionName id))` is `id`; for a name
which is the translated display name of no entry, `GetIdByName` is the empty
string. `translate` is an arbitrary function. -/
theorem GetIdByName_inverts_GetActionName (translate : String → String)
    (map : ActionMap A W) :
    (∀ (id : String) (info : MacroActionInfo A W), map.find id = some info →
      (∀ e ∈ map.entries, e.1 ≠ id → translate e.2._name ≠ translate info._name) →
      (MacroActionFactory.GetIdByName translate
        (translate (MacroActionFactory.GetActionName id map).1) map).1 = id) ∧
    (∀ name : String, (∀ e ∈ map.entries, translate e.2._name ≠ name) →
      (MacroActionFactory.GetIdByName translate name map).1 = "") := by
  refine ⟨fun id info hfind hothers => ?_, fun name hno => ?_⟩
  · have hname : (MacroActionFactory.GetActionName id map).1 = info._name := by
      simp [MacroActionFactory.GetActionName, hfind]
    rw [hname]
    exact idByNameLoop_unique translate _ id map.entries
      ⟨(id, info), findEntry_mem id info map.entries hfind, rfl, rfl⟩ hothers
  · exact idByNameLoop_none translate name map.entries hno

theorem GetIdByName_inverts_GetActionName_witness :
    (MacroActionFactory.GetIdByName sampleTranslate
        (sampleTranslate (MacroActionFactory.GetActionName "scene_switch" sampleMap).1)
        sampleMap).1 = "scene_switch" ∧
    (MacroActionFactory.GetIdByName sampleTranslate "Switch scene" sampleMap).1 = "" :=
  ⟨(GetIdByName_inverts_GetActionName sampleTranslate sampleMap).1 "scene_switch"
      (sampleInfo "Switch scene" (some 7)) (by simp [StdMap.find, sampleMap, findEntry])
      (by simp [sampleMap]),
   (GetIdByName_inverts_GetActionName sampleTranslate sampleMap).2 "Switch scene"
      (by simp [sampleMap, sampleInfo, sampleTranslate])⟩

end Factory

/-! ## Containers on positions given as natural numbers -/

section ContainerFacts

variable {A W : Type}

theorem lt_length_of_getElem?_eq_some (l : List A) (i : Nat) (a : A)
    (h : l[i]? = some a) : i < l.length := by
  rcases Nat.lt_or_ge i l.length with hlt | hge
  · exact hlt
  · rw [List.getElem?_eq_none hge] at h; cases h

theorem vecAt_natCast (l : List A) (i : Nat) (a : A) (h : l[i]? = some a) :
    vecAt l (i : Int) = .ok a := by
  simp [vecAt, h]

theorem vecErase_natCast (l : List A) (i : Nat) (h : i < l.length) :
    vecErase l (i : Int) = .ok (l.eraseIdx i) := by
  simp [vecErase, h]

theorem vecInsert_natCast (l : List A) (i : Nat) (a : A) (h : i ≤ l.length) :
    vecInsert l (i : Int) a = .ok (l.insertIdx i a) := by
  simp [vecInsert, h]

theorem vecIterSwap_natCast (l : List A) (i j : Nat) (x y : A)
    (hx : l[i]? = some x) (hy : l[j]? = some y) :
    vecIterSwap l (i : Int) (j : Int) = .ok ((l.set i y).set j x) := by
  simp [vecIterSwap, hx, hy]

theorem takeAt_natCast (l : List W) (i : Nat) :
    takeAt l (i : Int) = (l[i]?, l.eraseIdx i) := by
  simp [takeAt]

theorem insertWidget_natCast (l : List W) (i : Nat) (w : W) (h : i ≤ l.length) :
    insertWidget l (i : Int) w = l.insertIdx i w := by
  have hg : ¬ ((i : Int) < 0 ∨ (i : Int) > (l.length : Int)) := by omega
  simp only [insertWidget, if_neg hg, Int.toNat_ofNat]

end ContainerFacts

/-! ## Reordering -/

section Reorder

variable {A W : Type}

theorem MacroActionReorder_eval (s : AdvSceneSwitcher A W) (m : Macro A)
    (hs : s.selectedMacro = some m) (dst src : Nat) (x : A)
    (hx : m.actions[src]? = some x) (hdst : dst < m.actions.length) (hne : src ≠ dst) :
    MacroActionReorder (dst : Int) (src : Int) s = .ok { s with
      selectedMacro := some { m with actions := (m.actions.eraseIdx src).insertIdx dst x }
      actionsList := insertItem (takeAt s.actionsList src).2 dst (takeAt s.actionsList src).1 } := by
  have hsrc : src < m.actions.length := lt_length_of_getElem?_eq_some _ _ _ hx
  have hg : ¬ ((dst : Int) = (src : Int) ∨ (src : Int) < 0 ∨
      (src : Int) > (m.actions.length : Int) ∨ (dst : Int) < 0 ∨
      (dst : Int) > (m.actions.length : Int)) := by omega
  have hins : dst ≤ (m.actions.eraseIdx src).length := by
    rw [List.length_eraseIdx_of_lt hsrc]; omega
  simp only [MacroActionReorder, hs, if_neg hg, vecAt_natCast _ _ _ hx,
    vecErase_natCast _ _ hsrc, vecInsert_natCast _ _ _ hins, bind, Except.bind, pure,
    Except.pure]

theorem MacroElseActionReorder_eval (s : AdvSceneSwitcher A W) (m : Macro A)
    (hs : s.selectedMacro = some m) (dst src : Nat) (x : A)
    (hx : m.elseActions[src]? = some x) (hdst : dst < m.elseActions.length)
    (hne : src ≠ dst) :
    MacroElseActionReorder (dst : Int) (src : Int) s = .ok { s with
      selectedMacro :=
        some { m with elseActions := (m.elseActions.eraseIdx src).insertIdx dst x }
      elseActionsList :=
        insertItem (takeAt s.elseActionsList src).2 dst (takeAt s.elseActionsList src).1 } := by
  have hsrc : src < m.elseActions.length := lt_length_of_getElem?_eq_some _ _ _ hx
  have hg : ¬ ((dst : Int) = (src : Int) ∨ (src : Int) < 0 ∨
      (src : Int) > (m.elseActions.length : Int) ∨ (dst : Int) < 0 ∨
      (dst : Int) > (m.elseActions.length : Int)) := by omega
  have hins : dst ≤ (m.elseActions.eraseIdx src).length := by
    rw [List.length_eraseIdx_of_lt hsrc]; omega
  simp only [MacroElseActionReorder, hs, if_neg hg, vecAt_natCast _ _ _ hx,
    vecErase_natCast _ _ hsrc, vecInsert_natCast _ _ _ hins, bind, Except.bind, pure,
    Except.pure]

theorem MacroActionReorder_same (s : AdvSceneSwitcher A W) (k : Int) :
    MacroActionReorder k k s = .ok s := by
  cases hs : s.selectedMacro <;> simp [MacroActionReorder, hs]

theorem MacroElseActionReorder_same (s : AdvSceneSwitcher A W) (k : Int) :
    MacroElseActionReorder k k s = .ok s := by
  cases hs : s.selectedMacro <;> simp [MacroElseActionReorder, hs]

/-- C4. Drag and drop reorder moves one segment and keeps the rest in order.
For a selected macro whose action list has length `n` and positions
`src, dst < n` with `src ≠ dst`, `MacroActionReorder dst src` completes and
the new action list has the same length, is a permutation of the old one, has
the action formerly at `src` at position `dst` and, `dst` left out, equals the
old list with `src` left out; the else-actions are untouched. The same holds
for `MacroElseActionReorder` on the else-action list. With `to == from` both
leave the state as it is. -/
theorem MacroActionReorder_moves_segment (s : AdvSceneSwitcher A W) (m : Macro A)
    (hs : s.selectedMacro = some m) (dst src : Nat) :
    (src < m.actions.length → dst < m.actions.length → src ≠ dst →
      ∃ s1 m1, MacroActionReorder (dst : Int) (src : Int) s = .ok s1 ∧
        s1.selectedMacro = some m1 ∧ IsMoveOf m.actions m1.actions src dst ∧
        m1.elseActions = m.elseActions) ∧
    (src < m.elseActions.length → dst < m.elseActions.length → src ≠ dst →
      ∃ s1 m1, MacroElseActionReorder (dst : Int) (src : Int) s = .ok s1 ∧
        s1.selectedMacro = some m1 ∧ IsMoveOf m.elseActions m1.elseActions src dst ∧
        m1.actions = m.actions) ∧
    (∀ k : Int, MacroActionReorder k k s = .ok s ∧ MacroElseActionReorder k k s = .ok s) := by
  refine ⟨fun hsrc hdst hne => ?_, fun hsrc hdst hne => ?_, fun k => ?_⟩
  · have hx : m.actions[src]? = some (m.actions[src]) := List.getElem?_eq_getElem hsrc
    exact ⟨_, _, MacroActionReorder_eval s m hs dst src _ hx hdst hne, rfl,
      eraseIdx_insertIdx_isMoveOf m.actions src dst _ hx hdst, rfl⟩
  · have hx : m.elseActions[src]? = some (m.elseActions[src]) :=
      List.getElem?_eq_getElem hsrc
    exact ⟨_, _, MacroElseActionReorder_eval s m hs dst src _ hx hdst hne, rfl,
      eraseIdx_insertIdx_isMoveOf m.elseActions src dst _ hx hdst, rfl⟩
  · exact ⟨MacroActionReorder_same s k, MacroElseActionReorder_same s k⟩

theorem MacroActionReorder_moves_segment_witness :
    (∃ s1 m1, MacroActionReorder ((0 : Nat) : Int) ((2 : Nat) : Int)
        (sampleState [1, 2, 3] [4, 5] [11, 12, 13] [14, 15]) = .ok s1 ∧
      s1.selectedMacro = some m1 ∧
      IsMoveOf (Macro.mk [1, 2, 3] [4, 5]).actions m1.actions 2 0 ∧
      m1.elseActions = (Macro.mk [1, 2, 3] [4, 5]).elseActions) ∧
    (∃ s1 m1, MacroElseActionReorder ((1 : Nat) : Int) ((0 : Nat) : Int)
        (sampleState [1, 2, 3] [4, 5] [11, 12, 13] [14, 15]) = .ok s1 ∧
      s1.selectedMacro = some m1 ∧
      IsMoveOf (Macro.mk [1, 2, 3] [4, 5]).elseActions m1.elseActions 0 1 ∧
      m1.actions = (Macro.mk [1, 2, 3] [4, 5]).actions) :=
  ⟨(MacroActionReorder_moves_segment (sampleState [1, 2, 3] [4, 5] [11, 12, 13] [14, 15])
      ⟨[1, 2, 3], [4, 5]⟩ rfl 0 2).1 (by decide) (by decide) (by decide),
   (MacroActionReorder_moves_segment (sampleState [1, 2, 3] [4, 5] [11, 12, 13] [14, 15])
      ⟨[1, 2, 3], [4, 5]⟩ rfl 1 0).2.1 (by decide) (by decide) (by decide)⟩

theorem on_actionTop_clicked_eval (h : Host A W) (s : AdvSceneSwitcher A W) (m : Macro A)
    (hs : s.selectedMacro = some m) (c : Nat) (hc : c < m.actions.length)
    (hsel : s.sel.currentActionIdx = (c : Int)) :
    ∃ s1 m1, on_actionTop_clicked h s = .ok s1 ∧ s1.selectedMacro = some m1 ∧
      IsMoveOf m.actions m1.actions c 0 ∧ m1.elseActions = m.elseActions := by
  have hnosel : ¬ s.sel.currentActionIdx = -1 := by rw [hsel]; omega
  have hx : m.actions[c]? = some (m.actions[c]) := List.getElem?_eq_getElem hc
  rcases Nat.eq_zero_or_pos c with h0 | hpos
  · have hsame : MacroActionReorder 0 s.sel.currentActionIdx s = .ok s := by
      rw [hsel, h0]; exact MacroActionReorder_same s 0
    simp only [on_actionTop_clicked, if_neg hnosel, hsame, bind, Except.bind, pure,
      Except.pure]
    refine ⟨_, m, rfl, hs, ?_, rfl⟩
    rw [h0]; exact isMoveOf_refl _ _
  · have hev := MacroActionReorder_eval s m hs 0 c _ hx (by omega) (by omega)
    simp only [Nat.cast_zero] at hev
    simp only [on_actionTop_clicked, if_neg hnosel, hsel, hev, bind, Except.bind, pure,
      Except.pure]
    refine ⟨_, _, rfl, rfl, ?_, rfl⟩
    exact eraseIdx_insertIdx_isMoveOf m.actions c 0 _ hx (by omega)

theorem on_actionBottom_clicked_eval (h : Host A W) (s : AdvSceneSwitcher A W) (m : Macro A)
    (hs : s.selectedMacro = some m) (c : Nat) (hc : c < m.actions.length)
    (hw : s.actionsList.length = m.actions.length)
    (hsel : s.sel.currentActionIdx = (c : Int)) :
    ∃ s1 m1, on_actionBottom_clicked h s = .ok s1 ∧ s1.selectedMacro = some m1 ∧
      IsMoveOf m.actions m1.actions c (m.actions.length - 1) ∧
      m1.elseActions = m.elseActions := by
  have hnosel : ¬ s.sel.currentActionIdx = -1 := by rw [hsel]; omega
  have hx : m.actions[c]? = some (m.actions[c]) := List.getElem?_eq_getElem hc
  have hnew : layoutCount s.actionsList - 1 = ((m.actions.length - 1 : Nat) : Int) := by
    simp only [layoutCount, hw]; omega
  rcases Nat.lt_or_ge c (m.actions.length - 1) with hlt | hge
  · have hev := MacroActionReorder_eval s m hs (m.actions.length - 1) c _ hx
      (by omega) (by omega)
    simp only [on_actionBottom_clicked, if_neg hnosel, hsel, hnew, hev, bind, Except.bind,
      pure, Except.pure]
    refine ⟨_, _, rfl, rfl, ?_, rfl⟩
    exact eraseIdx_insertIdx_isMoveOf m.actions c (m.actions.length - 1) _ hx (by omega)
  · have hceq : m.actions.length - 1 = c := by omega
    have hsame : MacroActionReorder (layoutCount s.actionsList - 1)
        s.sel.currentActionIdx s = .ok s := by
      rw [hsel, hnew, hceq]; exact MacroActionReorder_same s _
    simp only [on_actionBottom_clicked, if_neg hnosel, hsame, bind, Except.bind, pure,
      Except.pure]
    refine ⟨_, m, rfl, hs, ?_, rfl⟩
    rw [hceq]; exact isMoveOf_refl _ _

/-- C5. The move-to-top and move-to-bottom buttons. For a selected macro with
`n ≥ 1` actions, a widget list of the same length and a selected position
`c < n`, `on_actionTop_clicked` completes with the action formerly at `c` at
position `0` and `on_actionBottom_clicked` with it at position `n - 1`, the
other actions keeping their order in both cases. With no selection
(`currentActionIdx == -1`) both leave the state as it is. -/
theorem on_actionTop_Bottom_clicked_move (h : Host A W) (s : AdvSceneSwitcher A W)
    (m : Macro A) (hs : s.selectedMacro = some m) :
    (∀ c : Nat, c < m.actions.length → s.actionsList.length = m.actions.length →
      s.sel.currentActionIdx = (c : Int) →
      (∃ s1 m1, on_actionTop_clicked h s = .ok s1 ∧ s1.selectedMacro = some m1 ∧
        IsMoveOf m.actions m1.actions c 0 ∧ m1.elseActions = m.elseActions) ∧
      (∃ s1 m1, on_actionBottom_clicked h s = .ok s1 ∧ s1.selectedMacro = some m1 ∧
        IsMoveOf m.actions m1.actions c (m.actions.length - 1) ∧
        m1.elseActions = m.elseActions)) ∧
    (s.sel.currentActionIdx = -1 →
      on_actionTop_clicked h s = .ok s ∧ on_actionBottom_clicked h s = .ok s) := by
  refine ⟨fun c hc hw hsel => ⟨on_actionTop_clicked_eval h s m hs c hc hsel,
    on_actionBottom_clicked_eval h s m hs c hc hw hsel⟩, fun hsel => ?_⟩
  simp [on_actionTop_clicked, on_actionBottom_clicked, hsel]

theorem on_actionTop_Bottom_clicked_move_witness :
    ((∃ s1 m1, on_actionTop_clicked sampleHost (sampleSelected [1, 2, 3] [11, 12, 13] 1) = .ok s1 ∧
        s1.selectedMacro = some m1 ∧
        IsMoveOf (Macro.mk [1, 2, 3] []).actions m1.actions 1 0 ∧
        m1.elseActions = (Macro.mk [1, 2, 3] []).elseActions) ∧
      (∃ s1 m1, on_actionBottom_clicked sampleHost (sampleSelected [1, 2, 3] [11, 12, 13] 1) =
          .ok s1 ∧
        s1.selectedMacro = some m1 ∧
        IsMoveOf (Macro.mk [1, 2, 3] []).actions m1.actions 1
          ((Macro.mk [1, 2, 3] []).actions.length - 1) ∧
        m1.elseActions = (Macro.mk [1, 2, 3] []).elseActions)) ∧
    (on_actionTop_clicked sampleHost (sampleState [1, 2, 3] [] [11, 12, 13] []) =
        .ok (sampleState [1, 2, 3] [] [11, 12, 13] []) ∧
      on_actionBottom_clicked sampleHost (sampleState [1, 2, 3] [] [11, 12, 13] []) =
        .ok (sampleState [1, 2, 3] [] [11, 12, 13] [])) :=
  ⟨(on_actionTop_Bottom_clicked_move sampleHost (sampleSelected [1, 2, 3] [11, 12, 13] 1)
      ⟨[1, 2, 3], []⟩ rfl).1 1 (by decide) (by decide) rfl,
   (on_actionTop_Bottom_clicked_move sampleHost (sampleState [1, 2, 3] [] [11, 12, 13] [])
      ⟨[1, 2, 3], []⟩ rfl).2 rfl⟩

end Reorder

/-! ## Adding and removing -/

section AddRemove

variable {A W : Type}

theorem AddMacroAction_eval (h : Host A W) (map : ActionMap A W)
    (s : AdvSceneSwitcher A W) (m : Macro A) (hs : s.selectedMacro = some m)
    (i : Nat) (hi : i ≤ m.actions.length) (id : String)
    (hid : newActionId h m.actions (i : Int) = .ok id) (a : A)
    (hc : (MacroActionFactory.Create id (some m) map).1 = some a) :
    ∃ s1 m1, AddMacroAction h map (i : Int) s = .ok s1 ∧ s1.selectedMacro = some m1 ∧
      IsInsertionOf m.actions m1.actions i a ∧ m1.elseActions = m.elseActions := by
  have hg : ¬ ((i : Int) < 0 ∨ (i : Int) > (m.actions.length : Int)) := by omega
  simp only [AddMacroAction, hs, if_neg hg, hid, hc, vecInsert_natCast _ _ _ hi, bind,
    Except.bind, pure, Except.pure]
  exact ⟨_, _, rfl, rfl, insertIdx_isInsertionOf m.actions i a hi, rfl⟩

theorem AddMacroAction_out_of_range (h : Host A W) (map : ActionMap A W)
    (s : AdvSceneSwitcher A W) (m : Macro A) (hs : s.selectedMacro = some m)
    (idx : Int) (hidx : idx < 0 ∨ idx > (m.actions.length : Int)) :
    AddMacroAction h map idx s = .ok s := by
  simp only [AddMacroAction, hs, if_pos hidx]

/-- C6, as amended. `AddMacroAction` inserts exactly one action at the
requested position whenever the factory creates an action, that is returns a
pointer which is not null, for the id the slot chooses. For a selected macro
with `n` actions: at `idx == 0` the action which the factory creates for the
scene switch id is inserted at the top; at `idx == i + 1 <= n` the action which
the factory creates for the id of the action at position `i` is inserted at
position `i + 1`. In both cases the call completes, the list is one longer,
the elements before `idx` stay, the new element is at `idx` and the elements
from `idx` on are shifted by one; the else-actions are untouched. For
`idx < 0` or `idx > n` the state is left as it is. -/
theorem AddMacroAction_inserts_one (h : Host A W) (map : ActionMap A W)
    (s : AdvSceneSwitcher A W) (m : Macro A) (hs : s.selectedMacro = some m) :
    (∀ a : A, (MacroActionFactory.Create h.sceneSwitchId (some m) map).1 = some a →
      ∃ s1 m1, AddMacroAction h map ((0 : Nat) : Int) s = .ok s1 ∧
        s1.selectedMacro = some m1 ∧ IsInsertionOf m.actions m1.actions 0 a ∧
        m1.elseActions = m.elseActions) ∧
    (∀ (i : Nat) (prev a : A), m.actions[i]? = some prev →
      (MacroActionFactory.Create (h.GetId prev) (some m) map).1 = some a →
      ∃ s1 m1, AddMacroAction h map ((i + 1 : Nat) : Int) s = .ok s1 ∧
        s1.selectedMacro = some m1 ∧ IsInsertionOf m.actions m1.actions (i + 1) a ∧
        m1.elseActions = m.elseActions) ∧
    (∀ idx : Int, idx < 0 ∨ idx > (m.actions.length : Int) →
      AddMacroAction h map idx s = .ok s) := by
  refine ⟨fun a hc => ?_, fun i prev a hprev hc => ?_, fun idx hidx => ?_⟩
  · refine AddMacroAction_eval h map s m hs 0 (Nat.zero_le _) h.sceneSwitchId ?_ a hc
    simp [newActionId, pure, Except.pure]
  · have hi : i < m.actions.length := lt_length_of_getElem?_eq_some _ _ _ hprev
    refine AddMacroAction_eval h map s m hs (i + 1) hi (h.GetId prev) ?_ a hc
    have hge : ((i + 1 : Nat) : Int) - 1 ≥ 0 := by omega
    have hcast : ((i + 1 : Nat) : Int) - 1 = (i : Int) := by omega
    have hge2 : (i : Int) ≥ 0 := by omega
    simp only [newActionId, if_pos hge, hcast, if_pos hge2, vecAt_natCast _ _ _ hprev, bind, Except.bind,
      pure, Except.pure]
  · exact AddMacroAction_out_of_range h map s m hs idx hidx

theorem AddMacroAction_inserts_one_witness :
    (∃ s1 m1, AddMacroAction sampleHost sampleMap ((0 : Nat) : Int)
        (sampleState [2, 4] [] [102, 104] []) = .ok s1 ∧
      s1.selectedMacro = some m1 ∧
      IsInsertionOf (Macro.mk [2, 4] []).actions m1.actions 0 7 ∧
      m1.elseActions = (Macro.mk [2, 4] []).elseActions) ∧
    (∃ s1 m1, AddMacroAction sampleHost sampleMap ((1 + 1 : Nat) : Int)
        (sampleState [2, 4] [] [102, 104] []) = .ok s1 ∧
      s1.selectedMacro = some m1 ∧
      IsInsertionOf (Macro.mk [2, 4] []).actions m1.actions (1 + 1) 7 ∧
      m1.elseActions = (Macro.mk [2, 4] []).elseActions) ∧
    AddMacroAction sampleHost sampleMap 3 (sampleState [2, 4] [] [102, 104] []) =
      .ok (sampleState [2, 4] [] [102, 104] []) :=
  ⟨(AddMacroAction_inserts_one sampleHost sampleMap (sampleState [2, 4] [] [102, 104] [])
      ⟨[2, 4], []⟩ rfl).1 7 rfl,
   (AddMacroAction_inserts_one sampleHost sampleMap (sampleState [2, 4] [] [102, 104] [])
      ⟨[2, 4], []⟩ rfl).2.1 1 4 7 rfl rfl,
   (AddMacroAction_inserts_one sampleHost sampleMap (sampleState [2, 4] [] [102, 104] [])
      ⟨[2, 4], []⟩ rfl).2.2 3 (by decide)⟩

/-- C6, counterexample to the claim as stated. With a registry which has no
entry for the chosen id the factory returns null and `AddMacroAction` at a
position within range does not yield a list: on an empty action list and an
empty registry `AddMacroAction 0` ends in a null dereference, and so does
`AddMacroAction 1` behind an action whose id (`media`) is not registered. -/
theorem AddMacroAction_null_from_factory :
    AddMacroAction sampleHost StdMap.empty 0 (sampleState [] [] [] []) =
      .error Fault.nullDereference ∧
    AddMacroAction sampleHost sampleMap 1 (sampleState [1] [] [101] []) =
      .error Fault.nullDereference ∧
    ¬ (∃ s1 m1, AddMacroAction sampleHost StdMap.empty 0 (sampleState [] [] [] []) = .ok s1 ∧
      s1.selectedMacro = some m1 ∧ m1.actions.length = 0 + 1) := by
  refine ⟨rfl, rfl, ?_⟩
  rintro ⟨s1, m1, hev, _, _⟩
  have herr : AddMacroAction sampleHost StdMap.empty 0 (sampleState [] [] [] []) =
      .error Fault.nullDereference := rfl
  rw [herr] at hev
  cases hev

theorem RemoveMacroAction_eval (h : Host A W) (s : AdvSceneSwitcher A W) (m : Macro A)
    (hs : s.selectedMacro = some m) (i : Nat) (hi : i < m.actions.length) :
    ∃ s1 m1, RemoveMacroAction h (i : Int) s = .ok s1 ∧ s1.selectedMacro = some m1 ∧
      m1.actions = m.actions.eraseIdx i ∧ m1.elseActions = m.elseActions := by
  have hg : ¬ ((i : Int) < 0 ∨ (i : Int) ≥ (m.actions.length : Int)) := by omega
  simp only [RemoveMacroAction, hs, if_neg hg, vecErase_natCast _ _ hi, bind, Except.bind,
    pure, Except.pure, MacroActionSelectionChanged]
  exact ⟨_, _, rfl, rfl, rfl, rfl⟩

/-- C7. `RemoveMacroAction` removes exactly the action at the requested
position. For a selected macro with `n` actions and `idx < n` the call
completes and the new action list is the old one with the element at `idx`
erased: one shorter, the elements before `idx` in place and those after it
moved down by one; the else-actions are untouched. For `idx < 0` or
`idx >= n`, so for every `idx` when the list is empty, the state is left as it
is. -/
theorem RemoveMacroAction_removes_one (h : Host A W) (s : AdvSceneSwitcher A W)
    (m : Macro A) (hs : s.selectedMacro = some m) :
    (∀ i : Nat, i < m.actions.length →
      ∃ s1 m1, RemoveMacroAction h (i : Int) s = .ok s1 ∧ s1.selectedMacro = some m1 ∧
        m1.actions = m.actions.eraseIdx i ∧ IsRemovalOf m.actions m1.actions i ∧
        m1.elseActions = m.elseActions) ∧
    (∀ idx : Int, idx < 0 ∨ idx ≥ (m.actions.length : Int) →
      RemoveMacroAction h idx s = .ok s) ∧
    (m.actions = [] → ∀ idx : Int, RemoveMacroAction h idx s = .ok s) := by
  have hout : ∀ idx : Int, idx < 0 ∨ idx ≥ (m.actions.length : Int) →
      RemoveMacroAction h idx s = .ok s := by
    intro idx hidx
    simp only [RemoveMacroAction, hs, if_pos hidx]
  refine ⟨fun i hi => ?_, hout, fun hnil idx => ?_⟩
  · obtain ⟨s1, m1, hev, hsel, hact, helse⟩ := RemoveMacroAction_eval h s m hs i hi
    refine ⟨s1, m1, hev, hsel, hact, ?_, helse⟩
    rw [hact]
    exact eraseIdx_isRemovalOf m.actions i hi
  · refine hout idx ?_
    rw [hnil]
    simp only [List.length_nil, Nat.cast_zero]
    omega

theorem RemoveMacroAction_removes_one_witness :
    (∃ s1 m1, RemoveMacroAction sampleHost ((1 : Nat) : Int)
        (sampleState [1, 2, 3] [4] [11, 12, 13] [14]) = .ok s1 ∧
      s1.selectedMacro = some m1 ∧
      m1.actions = (Macro.mk [1, 2, 3] [4]).actions.eraseIdx 1 ∧
      IsRemovalOf (Macro.mk [1, 2, 3] [4]).actions m1.actions 1 ∧
      m1.elseActions = (Macro.mk [1, 2, 3] [4]).elseActions) ∧
    RemoveMacroAction sampleHost 3 (sampleState [1, 2, 3] [4] [11, 12, 13] [14]) =
      .ok (sampleState [1, 2, 3] [4] [11, 12, 13] [14]) ∧
    (∀ idx : Int, RemoveMacroAction sampleHost idx (sampleState [] [4] [] [14]) =
      .ok (sampleState [] [4] [] [14])) :=
  ⟨(RemoveMacroAction_removes_one sampleHost (sampleState [1, 2, 3] [4] [11, 12, 13] [14])
      ⟨[1, 2, 3], [4]⟩ rfl).1 1 (by decide),
   (RemoveMacroAction_removes_one sampleHost (sampleState [1, 2, 3] [4] [11, 12, 13] [14])
      ⟨[1, 2, 3], [4]⟩ rfl).2.1 3 (by decide),
   (RemoveMacroAction_removes_one sampleHost (sampleState [] [4] [] [14])
      ⟨[], [4]⟩ rfl).2.2 rfl⟩

end AddRemove

/-! ## The range check of the reorder slots and the remove button of the else-actions -/

/-- C8. The range check of `MacroActionReorder` and `MacroElseActionReorder`
lets an index equal to the size of the list through. On a one-element list
`from == 1` passes the check and `at(1)` throws; `to == 1` passes the check
and, after the erase, the insert position lies behind the end. -/
theorem MacroActionReorder_check_admits_size :
    MacroActionReorder 0 1 (sampleState [5] [] [50] []) = .error Fault.outOfRange ∧
    MacroActionReorder 1 0 (sampleState [5] [] [50] []) = .error Fault.undefinedBehaviour ∧
    MacroElseActionReorder 0 1 (sampleState [] [5] [] [50]) = .error Fault.outOfRange ∧
    MacroElseActionReorder 1 0 (sampleState [] [5] [] [50]) =
      .error Fault.undefinedBehaviour :=
  ⟨rfl, rfl, rfl, rfl⟩

/-- C9. With no else-action selected `on_elseActionRemove_clicked` computes the
position to remove from the number of actions, not of else-actions. A macro
with no action and one else-action keeps its else-action; a macro with one
action and three else-actions loses the first else-action, not the last. The
sibling `on_actionRemove_clicked` removes the last action. -/
theorem on_elseActionRemove_clicked_uses_action_count :
    (∃ s1, on_elseActionRemove_clicked sampleHost (sampleState [] [9] [] [90]) = .ok s1 ∧
      s1.selectedMacro = some ⟨[], [9]⟩) ∧
    (∃ s1, on_elseActionRemove_clicked sampleHost (sampleState [1] [7, 8, 9] [11] [70, 80, 90]) =
        .ok s1 ∧
      s1.selectedMacro = some ⟨[1], [8, 9]⟩) ∧
    (∃ s1, on_actionRemove_clicked sampleHost (sampleState [7, 8, 9] [1] [70, 80, 90] [11]) =
        .ok s1 ∧
      s1.selectedMacro = some ⟨[7, 8], [1]⟩) :=
  ⟨⟨_, rfl, rfl⟩, ⟨_, rfl, rfl⟩, ⟨_, rfl, rfl⟩⟩

/-! ## Swapping -/

section Swap

variable {A W : Type}

theorem isExchangeOf_symm (l r : List A) (i j : Nat) (h : IsExchangeOf l r i j) :
    IsExchangeOf l r j i :=
  ⟨h.1, h.2.2.1, h.2.1, fun k hkj hki => h.2.2.2 k hki hkj⟩

/-- The layout steps of a swap on positions `i < j` of a list with widgets
`w1` at `i` and `w2` at `j`. -/
theorem swap_layout_steps (l : List W) (i j : Nat) (hij : i < j) (w1 w2 : W)
    (h1 : l[i]? = some w1) (h2 : l[j]? = some w2) :
    (takeAt l (i : Int)).1 = some w1 ∧
    (takeAt (takeAt l (i : Int)).2 ((j : Int) - 1)).1 = some w2 ∧
    MacroSegmentList.Insert
      (MacroSegmentList.Insert (takeAt (takeAt l (i : Int)).2 ((j : Int) - 1)).2 (i : Int) w2)
      (j : Int) w1 = (l.set i w2).set j w1 := by
  have hj : j < l.length := lt_length_of_getElem?_eq_some _ _ _ h2
  have hcast : (j : Int) - 1 = ((j - 1 : Nat) : Int) := by omega
  have hlen1 : (l.eraseIdx i).length = l.length - 1 :=
    List.length_eraseIdx_of_lt (by omega)
  have hlen2 : ((l.eraseIdx i).eraseIdx (j - 1)).length = l.length - 2 := by
    rw [List.length_eraseIdx_of_lt (by omega), hlen1]; omega
  have hsnd : (l.eraseIdx i)[j - 1]? = some w2 := by
    rw [List.getElem?_eraseIdx, if_neg (by omega)]
    have : j - 1 + 1 = j := by omega
    rw [this, h2]
  refine ⟨by rw [takeAt_natCast, h1], by rw [takeAt_natCast, hcast, takeAt_natCast, hsnd], ?_⟩
  rw [takeAt_natCast, hcast, takeAt_natCast]
  simp only [MacroSegmentList.Insert]
  have hi2 : i ≤ ((l.eraseIdx i).eraseIdx (j - 1)).length := by omega
  have hj2 : j ≤ (((l.eraseIdx i).eraseIdx (j - 1)).insertIdx i w2).length := by
    rw [List.length_insertIdx _ _ hi2, hlen2]; omega
  rw [insertWidget_natCast _ _ _ hi2, insertWidget_natCast _ _ _ hj2]
  have hd : j = i + 1 + (j - i - 1) := by omega
  have hd2 : j - 1 = i + (j - i - 1) := by omega
  have h2b : l[i + 1 + (j - i - 1)]? = some w2 := by rw [← hd]; exact h2
  have key := take_take_insert_insert_eq_set_set l i (j - i - 1) w1 w2 h1 h2b
  rw [← hd2, ← hd] at key
  exact key

theorem SwapActions_eval (m : Macro A) (s : AdvSceneSwitcher A W) (i j : Nat) (hij : i < j)
    (x y : A) (hx : m.actions[i]? = some x) (hy : m.actions[j]? = some y)
    (w1 w2 : W) (h1 : s.actionsList[i]? = some w1) (h2 : s.actionsList[j]? = some w2) :
    SwapActions m (i : Int) (j : Int) s =
      .ok ({ m with actions := (m.actions.set i y).set j x },
           { s with actionsList := (s.actionsList.set i w2).set j w1 }) ∧
    SwapActions m (j : Int) (i : Int) s =
      .ok ({ m with actions := (m.actions.set i y).set j x },
           { s with actionsList := (s.actionsList.set i w2).set j w1 }) := by
  obtain ⟨t1, t2, t3⟩ := swap_layout_steps s.actionsList i j hij w1 w2 h1 h2
  have hne : ¬ (i : Int) = (j : Int) := by omega
  have hne2 : ¬ (j : Int) = (i : Int) := by omega
  have hgt : ¬ (i : Int) > (j : Int) := by omega
  have hgt2 : (j : Int) > (i : Int) := by omega
  constructor
  · simp only [SwapActions, if_neg hne, if_neg hgt, vecIterSwap_natCast _ _ _ _ _ hx hy, t1,
      t2, t3, derefItem, bind, Except.bind, pure, Except.pure]
  · simp only [SwapActions, if_neg hne2, if_pos hgt2, vecIterSwap_natCast _ _ _ _ _ hx hy, t1,
      t2, t3, derefItem, bind, Except.bind, pure, Except.pure]

theorem SwapElseActions_eval (m : Macro A) (s : AdvSceneSwitcher A W) (i j : Nat)
    (hij : i < j) (x y : A) (hx : m.elseActions[i]? = some x)
    (hy : m.elseActions[j]? = some y) (w1 w2 : W)
    (h1 : s.elseActionsList[i]? = some w1) (h2 : s.elseActionsList[j]? = some w2) :
    SwapElseActions m (i : Int) (j : Int) s =
      .ok ({ m with elseActions := (m.elseActions.set i y).set j x },
           { s with elseActionsList := (s.elseActionsList.set i w2).set j w1 }) ∧
    SwapElseActions m (j : Int) (i : Int) s =
      .ok ({ m with elseActions := (m.elseActions.set i y).set j x },
           { s with elseActionsList := (s.elseActionsList.set i w2).set j w1 }) := by
  obtain ⟨t1, t2, t3⟩ := swap_layout_steps s.elseActionsList i j hij w1 w2 h1 h2
  have hne : ¬ (i : Int) = (j : Int) := by omega
  have hne2 : ¬ (j : Int) = (i : Int) := by omega
  have hgt : ¬ (i : Int) > (j : Int) := by omega
  have hgt2 : (j : Int) > (i : Int) := by omega
  constructor
  · simp only [SwapElseActions, if_neg hne, if_neg hgt, vecIterSwap_natCast _ _ _ _ _ hx hy,
      t1, t2, t3, derefItem, bind, Except.bind, pure, Except.pure]
  · simp only [SwapElseActions, if_neg hne2, if_pos hgt2,
      vecIterSwap_natCast _ _ _ _ _ hx hy, t1, t2, t3, derefItem, bind, Except.bind, pure,
      Except.pure]

theorem SwapActions_exchange (m : Macro A) (s : AdvSceneSwitcher A W) (pos1 pos2 : Nat)
    (h1 : pos1 < m.actions.length) (h2 : pos2 < m.actions.length)
    (hw : s.actionsList.length = m.actions.length) (hne : pos1 ≠ pos2) :
    ∃ m1 s1, SwapActions m (pos1 : Int) (pos2 : Int) s = .ok (m1, s1) ∧
      IsExchangeOf m.actions m1.actions pos1 pos2 ∧
      IsExchangeOf s.actionsList s1.actionsList pos1 pos2 ∧
      m1.elseActions = m.elseActions ∧ s1.elseActionsList = s.elseActionsList ∧
      s1.selectedMacro = s.selectedMacro := by
  have hx1 : m.actions[pos1]? = some (m.actions[pos1]) := List.getElem?_eq_getElem h1
  have hx2 : m.actions[pos2]? = some (m.actions[pos2]) := List.getElem?_eq_getElem h2
  have hv1 : s.actionsList[pos1]? = some (s.actionsList[pos1]) :=
    List.getElem?_eq_getElem (by omega)
  have hv2 : s.actionsList[pos2]? = some (s.actionsList[pos2]) :=
    List.getElem?_eq_getElem (by omega)
  rcases Nat.lt_or_gt_of_ne hne with hlt | hgt
  · exact ⟨_, _, (SwapActions_eval m s pos1 pos2 hlt _ _ hx1 hx2 _ _ hv1 hv2).1,
      set_set_isExchangeOf _ _ _ _ _ hne hx1 hx2,
      set_set_isExchangeOf _ _ _ _ _ hne hv1 hv2, rfl, rfl, rfl⟩
  · exact ⟨_, _, (SwapActions_eval m s pos2 pos1 hgt _ _ hx2 hx1 _ _ hv2 hv1).2,
      isExchangeOf_symm _ _ _ _ (set_set_isExchangeOf _ _ _ _ _ (Ne.symm hne) hx2 hx1),
      isExchangeOf_symm _ _ _ _ (set_set_isExchangeOf _ _ _ _ _ (Ne.symm hne) hv2 hv1),
      rfl, rfl, rfl⟩

theorem SwapElseActions_exchange (m : Macro A) (s : AdvSceneSwitcher A W) (pos1 pos2 : Nat)
    (h1 : pos1 < m.elseActions.length) (h2 : pos2 < m.elseActions.length)
    (hw : s.elseActionsList.length = m.elseActions.length) (hne : pos1 ≠ pos2) :
    ∃ m1 s1, SwapElseActions m (pos1 : Int) (pos2 : Int) s = .ok (m1, s1) ∧
      IsExchangeOf m.elseActions m1.elseActions pos1 pos2 ∧
      IsExchangeOf s.elseActionsList s1.elseActionsList pos1 pos2 ∧
      m1.actions = m.actions ∧ s1.actionsList = s.actionsList ∧
      s1.selectedMacro = s.selectedMacro := by
  have hx1 : m.elseActions[pos1]? = some (m.elseActions[pos1]) :=
    List.getElem?_eq_getElem h1
  have hx2 : m.elseActions[pos2]? = some (m.elseActions[pos2]) :=
    List.getElem?_eq_getElem h2
  have hv1 : s.elseActionsList[pos1]? = some (s.elseActionsList[pos1]) :=
    List.getElem?_eq_getElem (by omega)
  have hv2 : s.elseActionsList[pos2]? = some (s.elseActionsList[pos2]) :=
    List.getElem?_eq_getElem (by omega)
  rcases Nat.lt_or_gt_of_ne hne with hlt | hgt
  · exact ⟨_, _, (SwapElseActions_eval m s pos1 pos2 hlt _ _ hx1 hx2 _ _ hv1 hv2).1,
      set_set_isExchangeOf _ _ _ _ _ hne hx1 hx2,
      set_set_isExchangeOf _ _ _ _ _ hne hv1 hv2, rfl, rfl, rfl⟩
  · exact ⟨_, _, (SwapElseActions_eval m s pos2 pos1 hgt _ _ hx2 hx1 _ _ hv2 hv1).2,
      isExchangeOf_symm _ _ _ _ (set_set_isExchangeOf _ _ _ _ _ (Ne.symm hne) hx2 hx1),
      isExchangeOf_symm _ _ _ _ (set_set_isExchangeOf _ _ _ _ _ (Ne.symm hne) hv2 hv1),
      rfl, rfl, rfl⟩

/-- C10. `SwapActions` exchanges two segments in the model and in the view.
For an action list and a widget list of the same length `n` and positions
`pos1, pos2 < n` with `pos1 ≠ pos2`, in either order, the call completes; the
new action list is the old one with the elements at `pos1` and `pos2`
exchanged and every other position unchanged, and so is the widget list which
results from `takeAt(min)`, `takeAt(max - 1)`, `Insert(min, second widget)`,
`Insert(max, first widget)`. The same holds for `SwapElseActions` on the
else-actions and their widgets. With `pos1 == pos2` nothing changes. -/
theorem SwapActions_exchanges_segments (m : Macro A) (s : AdvSceneSwitcher A W)
    (pos1 pos2 : Nat) :
    (pos1 < m.actions.length → pos2 < m.actions.length →
      s.actionsList.length = m.actions.length → pos1 ≠ pos2 →
      ∃ m1 s1, SwapActions m (pos1 : Int) (pos2 : Int) s = .ok (m1, s1) ∧
        IsExchangeOf m.actions m1.actions pos1 pos2 ∧
        IsExchangeOf s.actionsList s1.actionsList pos1 pos2 ∧
        m1.elseActions = m.elseActions ∧ s1.elseActionsList = s.elseActionsList ∧
        s1.selectedMacro = s.selectedMacro) ∧
    (pos1 < m.elseActions.length → pos2 < m.elseActions.length →
      s.elseActionsList.length = m.elseActions.length → pos1 ≠ pos2 →
      ∃ m1 s1, SwapElseActions m (pos1 : Int) (pos2 : Int) s = .ok (m1, s1) ∧
        IsExchangeOf m.elseActions m1.elseActions pos1 pos2 ∧
        IsExchangeOf s.elseActionsList s1.elseActionsList pos1 pos2 ∧
        m1.actions = m.actions ∧ s1.actionsList = s.actionsList ∧
        s1.selectedMacro = s.selectedMacro) ∧
    (∀ k : Int, SwapActions m k k s = .ok (m, s) ∧ SwapElseActions m k k s = .ok (m, s)) :=
  ⟨SwapActions_exchange m s pos1 pos2, SwapElseActions_exchange m s pos1 pos2,
   fun k => ⟨by simp [SwapActions], by simp [SwapElseActions]⟩⟩

theorem SwapActions_exchanges_segments_witness :
    (∃ m1 s1, SwapActions (Macro.mk [1, 2, 3, 4] [5, 6]) ((3 : Nat) : Int) ((1 : Nat) : Int)
        (sampleState [1, 2, 3, 4] [5, 6] [11, 12, 13, 14] [15, 16]) = .ok (m1, s1) ∧
      IsExchangeOf (Macro.mk [1, 2, 3, 4] [5, 6]).actions m1.actions 3 1 ∧
      IsExchangeOf (sampleState [1, 2, 3, 4] [5, 6] [11, 12, 13, 14] [15, 16]).actionsList
        s1.actionsList 3 1 ∧
      m1.elseActions = (Macro.mk [1, 2, 3, 4] [5, 6]).elseActions ∧
      s1.elseActionsList =
        (sampleState [1, 2, 3, 4] [5, 6] [11, 12, 13, 14] [15, 16]).elseActionsList ∧
      s1.selectedMacro =
        (sampleState [1, 2, 3, 4] [5, 6] [11, 12, 13, 14] [15, 16]).selectedMacro) ∧
    (∃ m1 s1, SwapElseActions (Macro.mk [1, 2, 3, 4] [5, 6]) ((0 : Nat) : Int) ((1 : Nat) : Int)
        (sampleState [1, 2, 3, 4] [5, 6] [11, 12, 13, 14] [15, 16]) = .ok (m1, s1) ∧
      IsExchangeOf (Macro.mk [1, 2, 3, 4] [5, 6]).elseActions m1.elseActions 0 1 ∧
      IsExchangeOf (sampleState [1, 2, 3, 4] [5, 6] [11, 12, 13, 14] [15, 16]).elseActionsList
        s1.elseActionsList 0 1 ∧
      m1.actions = (Macro.mk [1, 2, 3, 4] [5, 6]).actions ∧
      s1.actionsList =
        (sampleState [1, 2, 3, 4] [5, 6] [11, 12, 13, 14] [15, 16]).actionsList ∧
      s1.selectedMacro =
        (sampleState [1, 2, 3, 4] [5, 6] [11, 12, 13, 14] [15, 16]).selectedMacro) :=
  ⟨(SwapActions_exchanges_segments ⟨[1, 2, 3, 4], [5, 6]⟩
      (sampleState [1, 2, 3, 4] [5, 6] [11, 12, 13, 14] [15, 16]) 3 1).1
      (by decide) (by decide) (by decide) (by decide),
   (SwapActions_exchanges_segments ⟨[1, 2, 3, 4], [5, 6]⟩
      (sampleState [1, 2, 3, 4] [5, 6] [11, 12, 13, 14] [15, 16]) 0 1).2.1
      (by decide) (by decide) (by decide) (by decide)⟩

end Swap

/-! ## Moving up and down -/

section Move

variable {A W : Type}

theorem isExchangeOf_twice (l r t : List A) (i j : Nat) (h1 : IsExchangeOf l r i j)
    (h2 : IsExchangeOf r t i j) : t = l := by
  apply List.ext_getElem?
  intro k
  by_cases hki : k = i
  · rw [hki, h2.2.1, h1.2.2.1]
  · by_cases hkj : k = j
    · rw [hkj, h2.2.2.1, h1.2.1]
    · rw [h2.2.2.2 k hki hkj, h1.2.2.2 k hki hkj]

theorem MoveMacroActionUp_eval (s : AdvSceneSwitcher A W) (m : Macro A)
    (hs : s.selectedMacro = some m) (hw : s.actionsList.length = m.actions.length)
    (i : Nat) (h1 : 1 ≤ i) (hi : i < m.actions.length) :
    ∃ s1 m1, MoveMacroActionUp (i : Int) s = .ok s1 ∧ s1.selectedMacro = some m1 ∧
      IsExchangeOf m.actions m1.actions i (i - 1) ∧
      IsExchangeOf s.actionsList s1.actionsList i (i - 1) ∧
      m1.elseActions = m.elseActions := by
  have hg : ¬ ((i : Int) < 1 ∨ (i : Int) ≥ (m.actions.length : Int)) := by omega
  have hcast : (i : Int) - 1 = ((i - 1 : Nat) : Int) := by omega
  obtain ⟨m1, s1, hswap, hact, hwid, helse, _, _⟩ :=
    SwapActions_exchange m s i (i - 1) hi (by omega) hw (by omega)
  refine ⟨{ s1 with selectedMacro := some m1 }, m1, ?_, rfl, hact, hwid, helse⟩
  simp only [MoveMacroActionUp, hs, if_neg hg, hcast, hswap, bind, Except.bind, pure,
    Except.pure]

theorem MoveMacroActionDown_eval (s : AdvSceneSwitcher A W) (m : Macro A)
    (hs : s.selectedMacro = some m) (hw : s.actionsList.length = m.actions.length)
    (i : Nat) (hi : i + 1 < m.actions.length) :
    ∃ s1 m1, MoveMacroActionDown (i : Int) s = .ok s1 ∧ s1.selectedMacro = some m1 ∧
      IsExchangeOf m.actions m1.actions i (i + 1) ∧
      IsExchangeOf s.actionsList s1.actionsList i (i + 1) ∧
      m1.elseActions = m.elseActions := by
  have hg : ¬ ((i : Int) < 0 ∨ (i : Int) ≥ (m.actions.length : Int) - 1) := by omega
  have hcast : (i : Int) + 1 = ((i + 1 : Nat) : Int) := by omega
  obtain ⟨m1, s1, hswap, hact, hwid, helse, _, _⟩ :=
    SwapActions_exchange m s i (i + 1) (by omega) hi hw (by omega)
  refine ⟨{ s1 with selectedMacro := some m1 }, m1, ?_, rfl, hact, hwid, helse⟩
  simp only [MoveMacroActionDown, hs, if_neg hg, hcast, hswap, bind, Except.bind, pure,
    Except.pure]

theorem MoveMacroActionUp_then_Down (s : AdvSceneSwitcher A W) (m : Macro A)
    (hs : s.selectedMacro = some m) (hw : s.actionsList.length = m.actions.length)
    (i : Nat) (h1 : 1 ≤ i) (hi : i < m.actions.length) :
    ∃ s1 s2, MoveMacroActionUp (i : Int) s = .ok s1 ∧
      MoveMacroActionDown ((i : Int) - 1) s1 = .ok s2 ∧
      s2.selectedMacro = some m ∧ s2.actionsList = s.actionsList := by
  obtain ⟨s1, m1, hup, hsel1, hact1, hwid1, helse1⟩ :=
    MoveMacroActionUp_eval s m hs hw i h1 hi
  have hlen1 : m1.actions.length = m.actions.length := hact1.1
  have hw1 : s1.actionsList.length = m1.actions.length := by
    rw [hwid1.1, hlen1, hw]
  obtain ⟨s2, m2, hdown, hsel2, hact2, hwid2, helse2⟩ :=
    MoveMacroActionDown_eval s1 m1 hsel1 hw1 (i - 1) (by omega)
  have hidx : i - 1 + 1 = i := by omega
  rw [hidx] at hact2 hwid2
  have hcast : (i : Int) - 1 = ((i - 1 : Nat) : Int) := by omega
  refine ⟨s1, s2, hup, by rw [hcast]; exact hdown, ?_, ?_⟩
  · have hact : m2.actions = m.actions :=
      isExchangeOf_twice _ _ _ _ _ hact1 (isExchangeOf_symm _ _ _ _ hact2)
    have helse : m2.elseActions = m.elseActions := by rw [helse2, helse1]
    rw [hsel2]
    cases m2
    cases m
    simp only at hact helse
    rw [hact, helse]
  · exact isExchangeOf_twice _ _ _ _ _ hwid1 (isExchangeOf_symm _ _ _ _ hwid2)

/-- C11, as amended. Move-up and move-down are inverse and stop at the ends.
For a selected macro with `n` actions: `MoveMacroActionUp idx` leaves the state
as it is when `idx < 1` or `idx >= n`, `MoveMacroActionDown idx` when `idx < 0`
or `idx >= n - 1`. When the edit-widget list also has length `n`,
`MoveMacroActionUp idx` otherwise completes and exchanges positions `idx` and
`idx - 1`, `MoveMacroActionDown idx` otherwise completes and exchanges
positions `idx` and `idx + 1`, every other position and the else-actions
unchanged; and for `1 <= idx < n`, `MoveMacroActionUp idx` followed by
`MoveMacroActionDown (idx - 1)` restores the original action list, and the
original widget list. -/
theorem MoveMacroAction_up_down_inverse (s : AdvSceneSwitcher A W) (m : Macro A)
    (hs : s.selectedMacro = some m) :
    (∀ idx : Int, idx < 1 ∨ idx ≥ (m.actions.length : Int) →
      MoveMacroActionUp idx s = .ok s) ∧
    (∀ idx : Int, idx < 0 ∨ idx ≥ (m.actions.length : Int) - 1 →
      MoveMacroActionDown idx s = .ok s) ∧
    (s.actionsList.length = m.actions.length →
      (∀ i : Nat, 1 ≤ i → i < m.actions.length →
        ∃ s1 m1, MoveMacroActionUp (i : Int) s = .ok s1 ∧ s1.selectedMacro = some m1 ∧
          IsExchangeOf m.actions m1.actions i (i - 1) ∧
          m1.elseActions = m.elseActions) ∧
      (∀ i : Nat, i + 1 < m.actions.length →
        ∃ s1 m1, MoveMacroActionDown (i : Int) s = .ok s1 ∧ s1.selectedMacro = some m1 ∧
          IsExchangeOf m.actions m1.actions i (i + 1) ∧
          m1.elseActions = m.elseActions) ∧
      (∀ i : Nat, 1 ≤ i → i < m.actions.length →
        ∃ s1 s2, MoveMacroActionUp (i : Int) s = .ok s1 ∧
          MoveMacroActionDown ((i : Int) - 1) s1 = .ok s2 ∧
          s2.selectedMacro = some m ∧ s2.actionsList = s.actionsList)) := by
  refine ⟨fun idx hidx => ?_, fun idx hidx => ?_, fun hw => ⟨fun i h1 hi => ?_,
    fun i hi => ?_, fun i h1 hi => MoveMacroActionUp_then_Down s m hs hw i h1 hi⟩⟩
  · simp only [MoveMacroActionUp, hs, if_pos hidx]
  · simp only [MoveMacroActionDown, hs, if_pos hidx]
  · obtain ⟨s1, m1, hup, hsel, hact, _, helse⟩ := MoveMacroActionUp_eval s m hs hw i h1 hi
    exact ⟨s1, m1, hup, hsel, hact, helse⟩
  · obtain ⟨s1, m1, hdown, hsel, hact, _, helse⟩ := MoveMacroActionDown_eval s m hs hw i hi
    exact ⟨s1, m1, hdown, hsel, hact, helse⟩

theorem MoveMacroAction_up_down_inverse_witness :
    (MoveMacroActionUp 0 (sampleState [1, 2, 3] [] [11, 12, 13] []) =
        .ok (sampleState [1, 2, 3] [] [11, 12, 13] []) ∧
      MoveMacroActionDown 2 (sampleState [1, 2, 3] [] [11, 12, 13] []) =
        .ok (sampleState [1, 2, 3] [] [11, 12, 13] [])) ∧
    (∃ s1 m1, MoveMacroActionUp ((2 : Nat) : Int) (sampleState [1, 2, 3] [] [11, 12, 13] []) =
        .ok s1 ∧ s1.selectedMacro = some m1 ∧
      IsExchangeOf (Macro.mk [1, 2, 3] []).actions m1.actions 2 (2 - 1) ∧
      m1.elseActions = (Macro.mk [1, 2, 3] []).elseActions) ∧
    (∃ s1 m1, MoveMacroActionDown ((0 : Nat) : Int)
        (sampleState [1, 2, 3] [] [11, 12, 13] []) = .ok s1 ∧ s1.selectedMacro = some m1 ∧
      IsExchangeOf (Macro.mk [1, 2, 3] []).actions m1.actions 0 (0 + 1) ∧
      m1.elseActions = (Macro.mk [1, 2, 3] []).elseActions) ∧
    (∃ s1 s2, MoveMacroActionUp ((2 : Nat) : Int) (sampleState [1, 2, 3] [] [11, 12, 13] []) =
        .ok s1 ∧
      MoveMacroActionDown (((2 : Nat) : Int) - 1) s1 = .ok s2 ∧
      s2.selectedMacro = some (Macro.mk [1, 2, 3] []) ∧
      s2.actionsList = (sampleState [1, 2, 3] [] [11, 12, 13] []).actionsList) :=
  ⟨⟨(MoveMacroAction_up_down_inverse (sampleState [1, 2, 3] [] [11, 12, 13] [])
        ⟨[1, 2, 3], []⟩ rfl).1 0 (by decide),
    (MoveMacroAction_up_down_inverse (sampleState [1, 2, 3] [] [11, 12, 13] [])
        ⟨[1, 2, 3], []⟩ rfl).2.1 2 (by decide)⟩,
   ((MoveMacroAction_up_down_inverse (sampleState [1, 2, 3] [] [11, 12, 13] [])
        ⟨[1, 2, 3], []⟩ rfl).2.2 rfl).1 2 (by decide) (by decide),
   ((MoveMacroAction_up_down_inverse (sampleState [1, 2, 3] [] [11, 12, 13] [])
        ⟨[1, 2, 3], []⟩ rfl).2.2 rfl).2.1 0 (by decide),
   ((MoveMacroAction_up_down_inverse (sampleState [1, 2, 3] [] [11, 12, 13] [])
        ⟨[1, 2, 3], []⟩ rfl).2.2 rfl).2.2 2 (by decide) (by decide)⟩

/-- C11, counterexample to the claim as stated. On a macro with two actions
and a layout without edit widgets `MoveMacroActionUp 1` and
`MoveMacroActionDown 0` pass their range checks and `SwapActions` dereferences
the null item which `takeAt` returns: neither call yields an exchanged list. -/
theorem MoveMacroAction_null_without_widgets :
    MoveMacroActionUp 1 (sampleState [1, 2] [] [] []) = .error Fault.nullDereference ∧
    MoveMacroActionDown 0 (sampleState [1, 2] [] [] []) = .error Fault.nullDereference ∧
    ¬ (∃ s1 m1, MoveMacroActionUp 1 (sampleState [1, 2] [] [] []) = .ok s1 ∧
      s1.selectedMacro = some m1 ∧ IsExchangeOf [1, 2] m1.actions 1 0) := by
  refine ⟨rfl, rfl, ?_⟩
  rintro ⟨s1, m1, hev, _, _⟩
  have herr : MoveMacroActionUp 1 (sampleState [1, 2] [] [] []) =
      .error Fault.nullDereference := rfl
  rw [herr] at hev
  cases hev

end Move

/-! ## Alignment of the edit widgets with the actions -/

section Alignment

variable {A W : Type}

theorem map_insertIdx_eq (f : W → A) :
    ∀ (i : Nat) (l : List W) (w : W),
      (l.insertIdx i w).map f = (l.map f).insertIdx i (f w)
  | 0, l, w => by simp [List.insertIdx_zero]
  | i + 1, [], w => by simp [List.insertIdx_succ_nil]
  | i + 1, x :: xs, w => by
    rw [List.insertIdx_succ_cons, List.map_cons, List.map_cons, List.insertIdx_succ_cons,
      map_insertIdx_eq f i xs w]

theorem map_eraseIdx_eq (f : W → A) :
    ∀ (i : Nat) (l : List W), (l.eraseIdx i).map f = (l.map f).eraseIdx i
  | _, [] => by simp
  | 0, x :: xs => by simp
  | i + 1, x :: xs => by
    rw [List.eraseIdx_cons_succ, List.map_cons, List.map_cons, List.eraseIdx_cons_succ,
      map_eraseIdx_eq f i xs]

theorem isAlignedWith_iff_map (edited : W → A) (widgets : List W) (actions : List A) :
    IsAlignedWith edited widgets actions ↔ widgets.map edited = actions := by
  constructor
  · intro h
    apply List.ext_getElem?
    intro k
    rw [List.getElem?_map]
    exact h.2 k
  · intro h
    subst h
    exact ⟨by simp, fun k => by rw [List.getElem?_map]⟩

theorem AddMacroAction_state (h : Host A W) (map : ActionMap A W)
    (s : AdvSceneSwitcher A W) (m : Macro A) (hs : s.selectedMacro = some m)
    (i : Nat) (hi : i ≤ m.actions.length) (id : String)
    (hid : newActionId h m.actions (i : Int) = .ok id) (a : A)
    (hc : (MacroActionFactory.Create id (some m) map).1 = some a) :
    AddMacroAction h map (i : Int) s = .ok { s with
      selectedMacro := some { m with actions := m.actions.insertIdx i a }
      actionsList := MacroSegmentList.Insert s.actionsList (i : Int) (h.newMacroActionEdit a id) } := by
  have hg : ¬ ((i : Int) < 0 ∨ (i : Int) > (m.actions.length : Int)) := by omega
  simp only [AddMacroAction, hs, if_neg hg, hid, hc, vecInsert_natCast _ _ _ hi, bind,
    Except.bind, pure, Except.pure]

theorem RemoveMacroAction_state (h : Host A W) (s : AdvSceneSwitcher A W) (m : Macro A)
    (hs : s.selectedMacro = some m) (i : Nat) (hi : i < m.actions.length) :
    ∃ s1, RemoveMacroAction h (i : Int) s = .ok s1 ∧
      s1.selectedMacro = some { m with actions := m.actions.eraseIdx i } ∧
      s1.actionsList = s.actionsList.eraseIdx i := by
  have hg : ¬ ((i : Int) < 0 ∨ (i : Int) ≥ (m.actions.length : Int)) := by omega
  simp only [RemoveMacroAction, hs, if_neg hg, vecErase_natCast _ _ hi, bind, Except.bind,
    pure, Except.pure, MacroActionSelectionChanged, MacroSegmentList.Remove, takeAt_natCast]
  exact ⟨_, rfl, rfl, rfl⟩

theorem AddMacroAction_aligned (h : Host A W) (map : ActionMap A W) (edited : W → A)
    (hnew : ∀ (a : A) (id : String), edited (h.newMacroActionEdit a id) = a)
    (s : AdvSceneSwitcher A W) (m : Macro A) (hs : s.selectedMacro = some m)
    (hal : IsAlignedWith edited s.actionsList m.actions)
    (i : Nat) (hi : i ≤ m.actions.length) (id : String)
    (hid : newActionId h m.actions (i : Int) = .ok id) (a : A)
    (hc : (MacroActionFactory.Create id (some m) map).1 = some a) :
    ∃ s1 m1, AddMacroAction h map (i : Int) s = .ok s1 ∧ s1.selectedMacro = some m1 ∧
      IsAlignedWith edited s1.actionsList m1.actions := by
  refine ⟨_, _, AddMacroAction_state h map s m hs i hi id hid a hc, rfl, ?_⟩
  have hmap := (isAlignedWith_iff_map edited _ _).1 hal
  rw [isAlignedWith_iff_map]
  simp only [MacroSegmentList.Insert]
  rw [insertWidget_natCast _ _ _ (by rw [hal.1]; exact hi), map_insertIdx_eq, hmap, hnew]

theorem RemoveMacroAction_aligned (h : Host A W) (edited : W → A)
    (s : AdvSceneSwitcher A W) (m : Macro A) (hs : s.selectedMacro = some m)
    (hal : IsAlignedWith edited s.actionsList m.actions)
    (i : Nat) (hi : i < m.actions.length) :
    ∃ s1 m1, RemoveMacroAction h (i : Int) s = .ok s1 ∧ s1.selectedMacro = some m1 ∧
      IsAlignedWith edited s1.actionsList m1.actions := by
  obtain ⟨s1, hev, hsel, hwid⟩ := RemoveMacroAction_state h s m hs i hi
  refine ⟨s1, _, hev, hsel, ?_⟩
  have hmap := (isAlignedWith_iff_map edited _ _).1 hal
  rw [isAlignedWith_iff_map, hwid, map_eraseIdx_eq, hmap]

theorem MacroActionReorder_aligned (edited : W → A)
    (s : AdvSceneSwitcher A W) (m : Macro A) (hs : s.selectedMacro = some m)
    (hal : IsAlignedWith edited s.actionsList m.actions)
    (dst src : Nat) (hsrc : src < m.actions.length) (hdst : dst < m.actions.length) :
    ∃ s1 m1, MacroActionReorder (dst : Int) (src : Int) s = .ok s1 ∧
      s1.selectedMacro = some m1 ∧ IsAlignedWith edited s1.actionsList m1.actions := by
  by_cases hne : src = dst
  · subst hne
    exact ⟨s, m, MacroActionReorder_same s _, hs, hal⟩
  · have hx : m.actions[src]? = some (m.actions[src]) := List.getElem?_eq_getElem hsrc
    have hwlt : src < s.actionsList.length := by rw [hal.1]; exact hsrc
    have hw : s.actionsList[src]? = some (s.actionsList[src]) :=
      List.getElem?_eq_getElem hwlt
    refine ⟨_, _, MacroActionReorder_eval s m hs dst src _ hx hdst hne, rfl, ?_⟩
    have hmap := (isAlignedWith_iff_map edited _ _).1 hal
    have hed : edited (s.actionsList[src]) = m.actions[src] := by
      have hk := hal.2 src
      rw [hw, hx] at hk
      exact Option.some.inj hk
    have hins : dst ≤ (s.actionsList.eraseIdx src).length := by
      rw [List.length_eraseIdx_of_lt hwlt, hal.1]; omega
    rw [isAlignedWith_iff_map]
    simp only [takeAt_natCast, hw, insertItem]
    rw [insertWidget_natCast _ _ _ hins, map_insertIdx_eq, map_eraseIdx_eq, hmap, hed]

theorem SwapActions_aligned (edited : W → A)
    (s : AdvSceneSwitcher A W) (m : Macro A)
    (hal : IsAlignedWith edited s.actionsList m.actions)
    (pos1 pos2 : Nat) (h1 : pos1 < m.actions.length) (h2 : pos2 < m.actions.length) :
    ∃ m1 s1, SwapActions m (pos1 : Int) (pos2 : Int) s = .ok (m1, s1) ∧
      IsAlignedWith edited s1.actionsList m1.actions := by
  have hmap := (isAlignedWith_iff_map edited _ _).1 hal
  have step : ∀ i j : Nat, i < j → j < m.actions.length →
      ∃ m1 s1, (SwapActions m (i : Int) (j : Int) s = .ok (m1, s1) ∧
        SwapActions m (j : Int) (i : Int) s = .ok (m1, s1)) ∧
        IsAlignedWith edited s1.actionsList m1.actions := by
    intro i j hij hj
    have hi : i < m.actions.length := by omega
    have hx : m.actions[i]? = some (m.actions[i]) := List.getElem?_eq_getElem hi
    have hy : m.actions[j]? = some (m.actions[j]) := List.getElem?_eq_getElem hj
    have hwi : i < s.actionsList.length := by rw [hal.1]; exact hi
    have hwj : j < s.actionsList.length := by rw [hal.1]; exact hj
    have hv1 : s.actionsList[i]? = some (s.actionsList[i]) := List.getElem?_eq_getElem hwi
    have hv2 : s.actionsList[j]? = some (s.actionsList[j]) := List.getElem?_eq_getElem hwj
    have he1 : edited (s.actionsList[i]) = m.actions[i] := by
      have hk := hal.2 i
      rw [hv1, hx] at hk
      exact Option.some.inj hk
    have he2 : edited (s.actionsList[j]) = m.actions[j] := by
      have hk := hal.2 j
      rw [hv2, hy] at hk
      exact Option.some.inj hk
    refine ⟨_, _, SwapActions_eval m s i j hij _ _ hx hy _ _ hv1 hv2, ?_⟩
    rw [isAlignedWith_iff_map]
    simp only [List.map_set, hmap, he1, he2]
  rcases Nat.lt_trichotomy pos1 pos2 with hlt | heq | hgt
  · obtain ⟨m1, s1, hev, hal1⟩ := step pos1 pos2 hlt h2
    exact ⟨m1, s1, hev.1, hal1⟩
  · subst heq
    exact ⟨m, s, by simp [SwapActions], hal⟩
  · obtain ⟨m1, s1, hev, hal1⟩ := step pos2 pos1 hgt h1
    exact ⟨m1, s1, hev.2, hal1⟩

/-- C12. The edit-widget list stays aligned with the action list. Let the
widget list and the action list of the selected macro have the same length,
the widget at every position being the editor of the action at that position,
and let the widget built for a new action be its editor. Then for all
arguments which are positions of the list (`idx <= n` for `AddMacroAction`)
each of `AddMacroAction idx` (for the action the factory creates),
`RemoveMacroAction idx`, `MacroActionReorder to from` and
`SwapActions m pos1 pos2` completes, and the widget list and the action list
afterwards are aligned again. -/
theorem edit_widgets_stay_aligned (h : Host A W) (map : ActionMap A W) (edited : W → A)
    (hnew : ∀ (a : A) (id : String), edited (h.newMacroActionEdit a id) = a)
    (s : AdvSceneSwitcher A W) (m : Macro A) (hs : s.selectedMacro = some m)
    (hal : IsAlignedWith edited s.actionsList m.actions) :
    (∀ (i : Nat) (id : String) (a : A), i ≤ m.actions.length →
      newActionId h m.actions (i : Int) = .ok id →
      (MacroActionFactory.Create id (some m) map).1 = some a →
      ∃ s1 m1, AddMacroAction h map (i : Int) s = .ok s1 ∧ s1.selectedMacro = some m1 ∧
        IsAlignedWith edited s1.actionsList m1.actions) ∧
    (∀ i : Nat, i < m.actions.length →
      ∃ s1 m1, RemoveMacroAction h (i : Int) s = .ok s1 ∧ s1.selectedMacro = some m1 ∧
        IsAlignedWith edited s1.actionsList m1.actions) ∧
    (∀ dst src : Nat, src < m.actions.length → dst < m.actions.length →
      ∃ s1 m1, MacroActionReorder (dst : Int) (src : Int) s = .ok s1 ∧
        s1.selectedMacro = some m1 ∧ IsAlignedWith edited s1.actionsList m1.actions) ∧
    (∀ pos1 pos2 : Nat, pos1 < m.actions.length → pos2 < m.actions.length →
      ∃ m1 s1, SwapActions m (pos1 : Int) (pos2 : Int) s = .ok (m1, s1) ∧
        IsAlignedWith edited s1.actionsList m1.actions) :=
  ⟨fun i id a hi hid hc => AddMacroAction_aligned h map edited hnew s m hs hal i hi id hid a hc,
   fun i hi => RemoveMacroAction_aligned h edited s m hs hal i hi,
   fun dst src hsrc hdst => MacroActionReorder_aligned edited s m hs hal dst src hsrc hdst,
   fun pos1 pos2 h1 h2 => SwapActions_aligned edited s m hal pos1 pos2 h1 h2⟩

theorem edit_widgets_stay_aligned_witness :
    (∃ s1 m1, AddMacroAction sampleHost sampleMap ((2 : Nat) : Int)
        (sampleState [2, 4] [] [102, 104] []) = .ok s1 ∧ s1.selectedMacro = some m1 ∧
      IsAlignedWith sampleEdited s1.actionsList m1.actions) ∧
    (∃ s1 m1, RemoveMacroAction sampleHost ((0 : Nat) : Int)
        (sampleState [2, 4] [] [102, 104] []) = .ok s1 ∧ s1.selectedMacro = some m1 ∧
      IsAlignedWith sampleEdited s1.actionsList m1.actions) ∧
    (∃ s1 m1, MacroActionReorder ((0 : Nat) : Int) ((1 : Nat) : Int)
        (sampleState [2, 4] [] [102, 104] []) = .ok s1 ∧ s1.selectedMacro = some m1 ∧
      IsAlignedWith sampleEdited s1.actionsList m1.actions) ∧
    (∃ m1 s1, SwapActions (Macro.mk [2, 4] []) ((1 : Nat) : Int) ((0 : Nat) : Int)
        (sampleState [2, 4] [] [102, 104] []) = .ok (m1, s1) ∧
      IsAlignedWith sampleEdited s1.actionsList m1.actions) :=
  ⟨(edit_widgets_stay_aligned sampleHost sampleMap sampleEdited
      (fun a _ => Nat.add_sub_cancel_left 100 a) (sampleState [2, 4] [] [102, 104] [])
      ⟨[2, 4], []⟩ rfl ((isAlignedWith_iff_map _ _ _).2 rfl)).1 2 "scene_switch" 7
      (by decide) rfl rfl,
   (edit_widgets_stay_aligned sampleHost sampleMap sampleEdited
      (fun a _ => Nat.add_sub_cancel_left 100 a) (sampleState [2, 4] [] [102, 104] [])
      ⟨[2, 4], []⟩ rfl ((isAlignedWith_iff_map _ _ _).2 rfl)).2.1 0 (by decide),
   (edit_widgets_stay_aligned sampleHost sampleMap sampleEdited
      (fun a _ => Nat.add_sub_cancel_left 100 a) (sampleState [2, 4] [] [102, 104] [])
      ⟨[2, 4], []⟩ rfl ((isAlignedWith_iff_map _ _ _).2 rfl)).2.2.1 0 1
      (by decide) (by decide),
   (edit_widgets_stay_aligned sampleHost sampleMap sampleEdited
      (fun a _ => Nat.add_sub_cancel_left 100 a) (sampleState [2, 4] [] [102, 104] [])
      ⟨[2, 4], []⟩ rfl ((isAlignedWith_iff_map _ _ _).2 rfl)).2.2.2 1 0
      (by decide) (by decide)⟩

end Alignment

end advss
